import Mathlib

/-!
# Verification of the Friday voice-assistant core (Rust) against its specification

Shallow embedding of the repository `aryankumawat/Friday`:
* `assistant-core/src/lib.rs` — `SessionManager::run_once`, `Intent`, `EngineEvent`
* `assistant-core/src/enhanced_nlu.rs` — `EnhancedNlu` pattern registry and `parse_intent`
* `assistant-core/src/dialogue_manager.rs` — `DialogueManager` sessions and slot filling
* `assistant-core/src/plugin_system.rs` — `PluginManager` manifests and dispatch
* `assistant-core/src/plugin_executor.rs` — `PluginExecutor` fallback policy
* `assistant-core/src/streaming_asr.rs` — `VoiceActivityDetector`

Modelling conventions:
* Rust `String`/`&str` become `List Char` (`Str` below) or `String`; all inputs of
  interest are ASCII, and Unicode-only behaviours of Rust are noted where they
  could diverge.
* `f32` confidence values are the literals 0.6/0.7/0.8/0.9/0.95, whose `f32`
  roundings are distinct and ordered, so they are embedded as exact rationals.
* `u64` arithmetic is `Nat` with an explicit `% 2^64` where overflow matters.
* `HashMap` iteration order is unspecified in Rust; functions that iterate a map
  take the iteration order as an explicit parameter ranging over permutations of
  the key set.
* `async fn` bodies are straight-line state passing; every `.await?` is a
  sequential composition on `Except`.
* Rust's `regex` crate (leftmost-first, Perl-preference semantics) is embedded
  as a fuel-indexed backtracking matcher; the fuel bounds recursion depth and,
  because every star iteration is forced to consume input, is never exhausted
  on the concrete patterns of this repository.
-/

/-- Character strings, as lists of characters. -/
abbrev Str := List Char

/-- ASCII lowercasing of a character (Rust `to_lowercase` restricted to ASCII;
all repository patterns/inputs of interest are ASCII). -/
def lowerChar (c : Char) : Char :=
  if 'A' ≤ c ∧ c ≤ 'Z' then Char.ofNat (c.toNat + 32) else c

/-- ASCII lowercasing of a string. -/
def lowerStr (s : Str) : Str := s.map lowerChar

/-- `\d` — ASCII digit (all inputs of interest are ASCII). -/
def isDigitChar (c : Char) : Bool := '0' ≤ c && c ≤ '9'

/-- `\s` — whitespace as matched by the `regex` crate on ASCII text. -/
def isSpaceChar (c : Char) : Bool :=
  c = ' ' || c = '\t' || c = '\n' || c = '\r' || c = '\x0b' || c = '\x0c'

/-- `\w` — word character on ASCII text. -/
def isWordChar (c : Char) : Bool :=
  ('a' ≤ c && c ≤ 'z') || ('A' ≤ c && c ≤ 'Z') || isDigitChar c || c = '_'

/-- `.` — any character except newline (the `regex` crate default). -/
def isDotChar (c : Char) : Bool := c ≠ '\n'

/-- Regular-expression abstract syntax, covering the constructs used by the
repository's patterns: character classes, literals (case-sensitive and the
`(?i)` case-insensitive form), concatenation, alternation, greedy and lazy
star, capture groups and the `$` end-of-haystack anchor. -/
inductive RE where
  | eps
  | cls (p : Char → Bool)
  | lit (c : Char)
  | litCI (c : Char)
  | cat (a b : RE)
  | alt (a b : RE)
  | star (greedy : Bool) (a : RE)
  | group (n : Nat) (a : RE)
  | eol

namespace RE

/-- `a?` (greedy: prefers the present branch, as in Perl / the regex crate). -/
def opt (a : RE) : RE := .alt a .eps

/-- `a+` (greedy). -/
def plus (a : RE) : RE := .cat a (.star true a)

/-- `a+?` (lazy). -/
def plusLazy (a : RE) : RE := .cat a (.star false a)

/-- Concatenation of a list of regexes. -/
def seq (l : List RE) : RE := l.foldr RE.cat .eps

/-- Alternation of a list of regexes (left preference, empty list never matches). -/
def alts : List RE → RE
  | [] => .cls (fun _ => false)
  | [r] => r
  | r :: rs => .alt r (alts rs)

/-- Case-sensitive literal string. -/
def str (s : String) : RE := seq (s.toList.map RE.lit)

/-- Case-insensitive literal string (a literal under a `(?i)` flag). -/
def strCI (s : String) : RE := seq (s.toList.map RE.litCI)

/-- Structural size, used to pick a sufficient fuel. -/
def size : RE → Nat
  | .eps => 1
  | .cls _ => 1
  | .lit _ => 1
  | .litCI _ => 1
  | .cat a b => a.size + b.size + 1
  | .alt a b => a.size + b.size + 1
  | .star _ a => a.size + 1
  | .group _ a => a.size + 1
  | .eol => 1

end RE

/-- Capture environment: group index ↦ captured text (latest write wins). -/
abbrev Caps := List (Nat × Str)

/-- Record a capture (latest write shadows earlier ones). -/
def setCap (env : Caps) (n : Nat) (v : Str) : Caps := (n, v) :: env

/-- Look up a capture group; `none` mirrors a non-participating group in Rust. -/
def getCap (env : Caps) (n : Nat) : Option Str :=
  (env.find? (fun e => e.1 == n)).map (·.2)

/-- Fuel-indexed backtracking matcher in continuation-passing style, mirroring
Perl-preference (leftmost-first) semantics of the Rust `regex` crate: greedy
operators try the longer alternative first, alternation prefers the left
branch. A star iteration must consume at least one character (matching the
crate's behaviour of never looping on the empty string). The fuel strictly
decreases on every recursive call, so the definition is structural and the
kernel can evaluate it on concrete inputs. -/
def REM : Nat → RE → Str → Caps → (Str → Caps → Option Caps) → Option Caps
  | 0, _, _, _, _ => none
  | fuel + 1, r, s, env, k =>
    match r with
    | .eps => k s env
    | .eol => if s.isEmpty then k s env else none
    | .cls p =>
      match s with
      | [] => none
      | c :: rest => if p c then k rest env else none
    | .lit c =>
      match s with
      | [] => none
      | d :: rest => if c == d then k rest env else none
    | .litCI c =>
      match s with
      | [] => none
      | d :: rest => if lowerChar c == lowerChar d then k rest env else none
    | .cat a b => REM fuel a s env (fun s2 env2 => REM fuel b s2 env2 k)
    | .alt a b =>
      match REM fuel a s env k with
      | some e => some e
      | none => REM fuel b s env k
    | .star g a =>
      if g then
        match REM fuel a s env (fun s2 env2 =>
            if s2.length < s.length then REM fuel (.star g a) s2 env2 k else none) with
        | some e => some e
        | none => k s env
      else
        match k s env with
        | some e => some e
        | none =>
          REM fuel a s env (fun s2 env2 =>
            if s2.length < s.length then REM fuel (.star g a) s2 env2 k else none)
    | .group n a =>
      REM fuel a s env (fun s2 env2 =>
        k s2 (setCap env2 n (s.take (s.length - s2.length))))

/-- Fuel that bounds the recursion depth of `REM` on the repository's patterns
(each nesting level or star iteration consumes fuel at most `size + 2` times
per character). -/
def matchFuel (r : RE) (s : Str) : Nat := (s.length + 2) * (r.size + 2) + 16

/-- Try to match `r` at the start of `s`; on success return the captures. -/
def refindAt (r : RE) (s : Str) : Option Caps :=
  REM (matchFuel r s) r s [] (fun _ env => some env)

/-- Unanchored leftmost search (Rust `Regex::captures`): try each start
position from the left; the first position admitting a match wins. -/
def research (r : RE) : Str → Option Caps
  | [] => refindAt r []
  | c :: rest =>
    match refindAt r (c :: rest) with
    | some e => some e
    | none => research r rest

/-- Rust `Regex::is_match` (unanchored). -/
def reIsMatch (r : RE) (s : Str) : Bool := (research r s).isSome

/-- Rust `Regex::is_match` for a pattern beginning with the `^` anchor. -/
def reIsMatchAnchored (r : RE) (s : Str) : Bool := (refindAt r s).isSome

/-- `captures(s)` followed by `.get(n)` (unanchored pattern). -/
def reCapture (r : RE) (s : Str) (n : Nat) : Option Str :=
  (research r s).bind (fun env => getCap env n)

/-! ## Shared helpers for strings and parameter maps -/

/-- Rust `str::trim` on ASCII text. -/
def trimStr (s : Str) : Str :=
  ((s.dropWhile isSpaceChar).reverse.dropWhile isSpaceChar).reverse

/-- Does `needle` occur at the start of `hay`? -/
def strStarts : Str → Str → Bool
  | [], _ => true
  | _ :: _, [] => false
  | a :: as, b :: bs => a == b && strStarts as bs

/-- Rust `str::contains` (substring occurrence). -/
def strContains : Str → Str → Bool
  | hay, needle =>
    if strStarts needle hay then true
    else
      match hay with
      | [] => false
      | _ :: rest => strContains rest needle

/-- Rust `str::parse::<u64>()` on a captured `\d+` string: digit-only parse
with the `u64` range bound (overflow yields an error, modelled as `none`).
(The full Rust parser also accepts a leading `+`, which a `\d+` capture never
contains.) -/
def parseU64 (s : Str) : Option Nat :=
  if s.isEmpty || !(s.all isDigitChar) then none
  else
    let n := s.foldl (fun acc c => acc * 10 + (c.toNat - '0'.toNat)) 0
    if n < 2 ^ 64 then some n else none

/-- Parameter maps (`HashMap<String, String>`): association list where a later
insert shadows an earlier binding for the same key. -/
abbrev ParamMap := List (String × String)

/-- `HashMap::insert` (replacing semantics under `lookupParam`). -/
def paramsInsert (ps : ParamMap) (k v : String) : ParamMap := (k, v) :: ps

/-- `HashMap::get`. -/
def lookupParam (ps : ParamMap) (k : String) : Option String :=
  (ps.find? (fun e => e.1 == k)).map (·.2)

/-! ## Intent Matcher (`enhanced_nlu.rs`)

The pattern registry built by `EnhancedNlu::initialize_patterns`, transliterated
regex by regex. Confidences are exact rationals (their `f32` roundings are
distinct and order-isomorphic). -/

/-- `\s+` -/
def wsP : RE := RE.plus (.cls isSpaceChar)

/-- `(\d+)` as capture group `n`. -/
def digitsG (n : Nat) : RE := RE.group n (RE.plus (.cls isDigitChar))

/-- `(second|minute|hour)` as capture group `n` (case-sensitive form). -/
def unitG (n : Nat) : RE := RE.group n (RE.alts [RE.str "second", RE.str "minute", RE.str "hour"])

/-- `(second|minute|hour)` as capture group `n` under `(?i)`. -/
def unitGCI (n : Nat) : RE := RE.group n (RE.alts [RE.strCI "second", RE.strCI "minute", RE.strCI "hour"])

/-- `(.+)` as capture group `n`. -/
def anyPlusG (n : Nat) : RE := RE.group n (RE.plus (.cls isDotChar))

/-- `(.+?)` as capture group `n`. -/
def anyPlusLazyG (n : Nat) : RE := RE.group n (RE.plusLazy (.cls isDotChar))

/-- `(?i)(?:hey|hi|hello|yo)\s+(?:friday|assistant)` -/
def reGreet1 : RE := RE.seq [RE.alts [RE.strCI "hey", RE.strCI "hi", RE.strCI "hello", RE.strCI "yo"],
  wsP, RE.alts [RE.strCI "friday", RE.strCI "assistant"]]

/-- `(?i)(?:good\s+)?(?:morning|afternoon|evening)\s+friday` -/
def reGreet2 : RE := RE.seq [RE.opt (RE.seq [RE.strCI "good", wsP]),
  RE.alts [RE.strCI "morning", RE.strCI "afternoon", RE.strCI "evening"], wsP, RE.strCI "friday"]

/-- `(?i)what'?s\s+up\s+friday` -/
def reGreet3 : RE := RE.seq [RE.strCI "what", RE.opt (RE.lit '\''), RE.strCI "s",
  wsP, RE.strCI "up", wsP, RE.strCI "friday"]

/-- `(?i)set\s+(?:a\s+)?timer\s+for\s+(\d+)\s+(second|minute|hour)s?` -/
def reTimer1 : RE := RE.seq [RE.strCI "set", wsP, RE.opt (RE.seq [RE.strCI "a", wsP]),
  RE.strCI "timer", wsP, RE.strCI "for", wsP, digitsG 1, wsP, unitGCI 2, RE.opt (RE.litCI 's')]

/-- `(?i)(?:remind|alert)\s+me\s+in\s+(\d+)\s+(second|minute|hour)s?` -/
def reTimer2 : RE := RE.seq [RE.alts [RE.strCI "remind", RE.strCI "alert"], wsP, RE.strCI "me",
  wsP, RE.strCI "in", wsP, digitsG 1, wsP, unitGCI 2, RE.opt (RE.litCI 's')]

/-- `(?i)timer\s+(\d+)\s+(second|minute|hour)s?` -/
def reTimer3 : RE := RE.seq [RE.strCI "timer", wsP, digitsG 1, wsP, unitGCI 2, RE.opt (RE.litCI 's')]

/-- `(?i)(\d+)\s+(second|minute|hour)\s+timer` -/
def reTimer4 : RE := RE.seq [digitsG 1, wsP, unitGCI 2, wsP, RE.strCI "timer"]

/-- `(?i)set\s+timer\s+(\d+)` -/
def reTimer5 : RE := RE.seq [RE.strCI "set", wsP, RE.strCI "timer", wsP, digitsG 1]

/-- `(?i)what'?s\s+the\s+weather\s+(?:like\s+)?(?:in\s+)?(.+)?` -/
def reWeather1 : RE := RE.seq [RE.strCI "what", RE.opt (RE.lit '\''), RE.strCI "s", wsP,
  RE.strCI "the", wsP, RE.strCI "weather", wsP, RE.opt (RE.seq [RE.strCI "like", wsP]),
  RE.opt (RE.seq [RE.strCI "in", wsP]), RE.opt (anyPlusG 1)]

/-- `(?i)weather\s+(?:in\s+)?(.+)?` -/
def reWeather2 : RE := RE.seq [RE.strCI "weather", wsP, RE.opt (RE.seq [RE.strCI "in", wsP]),
  RE.opt (anyPlusG 1)]

/-- `(?i)how'?s\s+the\s+weather\s+(?:in\s+)?(.+)?` -/
def reWeather3 : RE := RE.seq [RE.strCI "how", RE.opt (RE.lit '\''), RE.strCI "s", wsP,
  RE.strCI "the", wsP, RE.strCI "weather", wsP, RE.opt (RE.seq [RE.strCI "in", wsP]),
  RE.opt (anyPlusG 1)]

/-- `(?i)is\s+it\s+(?:raining|sunny|cloudy|snowing)\s+(?:in\s+)?(.+)?` -/
def reWeather4 : RE := RE.seq [RE.strCI "is", wsP, RE.strCI "it", wsP,
  RE.alts [RE.strCI "raining", RE.strCI "sunny", RE.strCI "cloudy", RE.strCI "snowing"], wsP,
  RE.opt (RE.seq [RE.strCI "in", wsP]), RE.opt (anyPlusG 1)]

/-- `(?i)temperature\s+(?:in\s+)?(.+)?` -/
def reWeather5 : RE := RE.seq [RE.strCI "temperature", wsP, RE.opt (RE.seq [RE.strCI "in", wsP]),
  RE.opt (anyPlusG 1)]

/-- `(?i)open\s+(.+)` -/
def reApp1 : RE := RE.seq [RE.strCI "open", wsP, anyPlusG 1]

/-- `(?i)launch\s+(.+)` -/
def reApp2 : RE := RE.seq [RE.strCI "launch", wsP, anyPlusG 1]

/-- `(?i)start\s+(.+)` -/
def reApp3 : RE := RE.seq [RE.strCI "start", wsP, anyPlusG 1]

/-- `(?i)run\s+(.+)` -/
def reApp4 : RE := RE.seq [RE.strCI "run", wsP, anyPlusG 1]

/-- `(?i)(?:turn\s+)?volume\s+up` -/
def reSys1 : RE := RE.seq [RE.opt (RE.seq [RE.strCI "turn", wsP]), RE.strCI "volume", wsP, RE.strCI "up"]

/-- `(?i)(?:turn\s+)?volume\s+down` -/
def reSys2 : RE := RE.seq [RE.opt (RE.seq [RE.strCI "turn", wsP]), RE.strCI "volume", wsP, RE.strCI "down"]

/-- `(?i)(?:louder|increase\s+volume)` -/
def reSys3 : RE := RE.alts [RE.strCI "louder", RE.seq [RE.strCI "increase", wsP, RE.strCI "volume"]]

/-- `(?i)(?:quieter|decrease\s+volume|lower\s+volume)` -/
def reSys4 : RE := RE.alts [RE.strCI "quieter", RE.seq [RE.strCI "decrease", wsP, RE.strCI "volume"],
  RE.seq [RE.strCI "lower", wsP, RE.strCI "volume"]]

/-- `(?i)mute` -/
def reSys5 : RE := RE.strCI "mute"

/-- `(?i)unmute` -/
def reSys6 : RE := RE.strCI "unmute"

/-- `(?i)(?:go\s+to\s+)?sleep` -/
def reSys7 : RE := RE.seq [RE.opt (RE.seq [RE.strCI "go", wsP, RE.strCI "to", wsP]), RE.strCI "sleep"]

/-- `(?i)shutdown|shut\s+down` (top-level alternation). -/
def reSys8 : RE := RE.alt (RE.strCI "shutdown") (RE.seq [RE.strCI "shut", wsP, RE.strCI "down"])

/-- `(?i)restart|reboot` (top-level alternation). -/
def reSys9 : RE := RE.alt (RE.strCI "restart") (RE.strCI "reboot")

/-- `(?i)what\s+is\s+(.+)` -/
def reQuery1 : RE := RE.seq [RE.strCI "what", wsP, RE.strCI "is", wsP, anyPlusG 1]

/-- `(?i)who\s+is\s+(.+)` -/
def reQuery2 : RE := RE.seq [RE.strCI "who", wsP, RE.strCI "is", wsP, anyPlusG 1]

/-- `(?i)when\s+(?:is|was|will)\s+(.+)` -/
def reQuery3 : RE := RE.seq [RE.strCI "when", wsP,
  RE.alts [RE.strCI "is", RE.strCI "was", RE.strCI "will"], wsP, anyPlusG 1]

/-- `(?i)where\s+is\s+(.+)` -/
def reQuery4 : RE := RE.seq [RE.strCI "where", wsP, RE.strCI "is", wsP, anyPlusG 1]

/-- `(?i)how\s+(?:do\s+(?:i|you)|to)\s+(.+)` -/
def reQuery5 : RE := RE.seq [RE.strCI "how", wsP,
  RE.alt (RE.seq [RE.strCI "do", wsP, RE.alt (RE.strCI "i") (RE.strCI "you")]) (RE.strCI "to"),
  wsP, anyPlusG 1]

/-- `(?i)why\s+(.+)` -/
def reQuery6 : RE := RE.seq [RE.strCI "why", wsP, anyPlusG 1]

/-- `(?i)tell\s+me\s+about\s+(.+)` -/
def reQuery7 : RE := RE.seq [RE.strCI "tell", wsP, RE.strCI "me", wsP, RE.strCI "about", wsP, anyPlusG 1]

/-! ### Parameter extractors (`EnhancedNlu::extract_*_params`) -/

/-- `(\d+)\s+(second|minute|hour)s?` — the duration regex inside
`extract_timer_params` (case-sensitive: no `(?i)` flag in the source). -/
def reDurExtract : RE := RE.seq [digitsG 1, wsP, unitG 2, RE.opt (RE.lit 's')]

/-- `(?:for|called|named)\s+(.+?)(?:\s+timer)?$` — the label regex inside
`extract_timer_params`. -/
def reLabelExtract : RE := RE.seq [RE.alts [RE.str "for", RE.str "called", RE.str "named"], wsP,
  anyPlusLazyG 1, RE.opt (RE.seq [wsP, RE.str "timer"]), RE.eol]

/-- `(?:in|for|at)\s+(.+?)(?:\s+today|\s+tomorrow|$)` — inside
`extract_weather_params`. -/
def reWeatherLocExtract : RE := RE.seq [RE.alts [RE.str "in", RE.str "for", RE.str "at"], wsP,
  anyPlusLazyG 1,
  RE.alts [RE.seq [wsP, RE.str "today"], RE.seq [wsP, RE.str "tomorrow"], RE.eol]]

/-- `(?:open|launch|start|run)\s+(.+)` — inside `extract_app_params`. -/
def reAppExtract : RE := RE.seq [RE.alts [RE.str "open", RE.str "launch", RE.str "start", RE.str "run"],
  wsP, anyPlusG 1]

/-- `(?:what|who|when|where|how|why|tell\s+me\s+about)\s+(?:is\s+|was\s+|will\s+|do\s+|to\s+)?(.+)`
— inside `extract_query_params`. -/
def reQueryExtract : RE := RE.seq [
  RE.alts [RE.str "what", RE.str "who", RE.str "when", RE.str "where", RE.str "how", RE.str "why",
    RE.seq [RE.str "tell", wsP, RE.str "me", wsP, RE.str "about"]],
  wsP,
  RE.opt (RE.alts [RE.seq [RE.str "is", wsP], RE.seq [RE.str "was", wsP],
    RE.seq [RE.str "will", wsP], RE.seq [RE.str "do", wsP], RE.seq [RE.str "to", wsP]]),
  anyPlusG 1]

/-- `EnhancedNlu::extract_timer_params`. -/
def extractTimerParams (text : Str) : ParamMap :=
  let p0 : ParamMap := []
  let p1 :=
    match research reDurExtract text with
    | some env =>
      match getCap env 1, getCap env 2 with
      | some num, some unit =>
        paramsInsert (paramsInsert p0 "number" (String.mk num)) "unit" (String.mk unit)
      | _, _ => p0
    | none => p0
  match research reLabelExtract text with
  | some env =>
    match getCap env 1 with
    | some label => paramsInsert p1 "label" (String.mk label)
    | none => p1
  | none => p1

/-- `EnhancedNlu::extract_weather_params`. -/
def extractWeatherParams (text : Str) : ParamMap :=
  match research reWeatherLocExtract text with
  | some env =>
    match getCap env 1 with
    | some loc =>
      let l := trimStr loc
      if !l.isEmpty && l.length > 1 then paramsInsert [] "location" (String.mk l) else []
    | none => []
  | none => []

/-- `EnhancedNlu::extract_app_params`. -/
def extractAppParams (text : Str) : ParamMap :=
  match research reAppExtract text with
  | some env =>
    match getCap env 1 with
    | some app => paramsInsert [] "app_name" (String.mk (trimStr app))
    | none => []
  | none => []

/-- `EnhancedNlu::extract_system_params`. -/
def extractSystemParams (text : Str) : ParamMap :=
  let tl := lowerStr text
  let action : String :=
    if strContains tl "volume up".toList || strContains tl "louder".toList
        || strContains tl "increase".toList then "volume_up"
    else if strContains tl "volume down".toList || strContains tl "quieter".toList
        || strContains tl "decrease".toList || strContains tl "lower".toList then "volume_down"
    else if strContains tl "mute".toList && !(strContains tl "unmute".toList) then "mute"
    else if strContains tl "unmute".toList then "unmute"
    else if strContains tl "sleep".toList then "sleep"
    else if strContains tl "shutdown".toList || strContains tl "shut down".toList then "shutdown"
    else if strContains tl "restart".toList || strContains tl "reboot".toList then "restart"
    else "unknown"
  paramsInsert [] "action" action

/-- `EnhancedNlu::extract_query_params`. -/
def extractQueryParams (text : Str) : ParamMap :=
  match research reQueryExtract text with
  | some env =>
    match getCap env 1 with
    | some q => paramsInsert [] "question" (String.mk (trimStr q))
    | none => []
  | none => []

/-! ### The pattern registry and `parse_intent` -/

/-- One entry of the registry (`IntentPattern` in `enhanced_nlu.rs`): compiled
pattern, intent type, confidence, extractor (a missing extractor yields the
empty parameter map, exactly as `HashMap::new()` does in the source).
The `f32` confidences in the source are the literals 0.6/0.7/0.8/0.9/0.95,
whose `f32` roundings are distinct and ordered; they are embedded ×100 as
naturals (0.6 ↦ 60, …, 0.95 ↦ 95), which preserves every comparison the
source performs. -/
structure NluPattern where
  itype : String
  re : RE
  conf : Nat
  extract : Str → ParamMap

/-- The `"greeting"` bucket, in registration order (`add_greeting_patterns`). -/
def greetingPatterns : List NluPattern :=
  [⟨"greeting", reGreet1, 95, fun _ => []⟩,
   ⟨"greeting", reGreet2, 90, fun _ => []⟩,
   ⟨"greeting", reGreet3, 90, fun _ => []⟩]

/-- The `"timer"` bucket, in registration order (`add_timer_patterns`). -/
def timerPatterns : List NluPattern :=
  [⟨"timer", reTimer1, 90, extractTimerParams⟩,
   ⟨"timer", reTimer2, 80, extractTimerParams⟩,
   ⟨"timer", reTimer3, 70, extractTimerParams⟩,
   ⟨"timer", reTimer4, 70, extractTimerParams⟩,
   ⟨"timer", reTimer5, 60, extractTimerParams⟩]

/-- The `"weather"` bucket, in registration order (`add_weather_patterns`). -/
def weatherPatterns : List NluPattern :=
  [⟨"weather", reWeather1, 90, extractWeatherParams⟩,
   ⟨"weather", reWeather2, 80, extractWeatherParams⟩,
   ⟨"weather", reWeather3, 80, extractWeatherParams⟩,
   ⟨"weather", reWeather4, 70, extractWeatherParams⟩,
   ⟨"weather", reWeather5, 70, extractWeatherParams⟩]

/-- The `"app_launch"` bucket, in registration order (`add_app_launch_patterns`). -/
def appLaunchPatterns : List NluPattern :=
  [⟨"app_launch", reApp1, 90, extractAppParams⟩,
   ⟨"app_launch", reApp2, 90, extractAppParams⟩,
   ⟨"app_launch", reApp3, 80, extractAppParams⟩,
   ⟨"app_launch", reApp4, 70, extractAppParams⟩]

/-- The `"system_control"` bucket, in registration order
(`add_system_control_patterns`). -/
def systemControlPatterns : List NluPattern :=
  [⟨"system_control", reSys1, 90, extractSystemParams⟩,
   ⟨"system_control", reSys2, 90, extractSystemParams⟩,
   ⟨"system_control", reSys3, 80, extractSystemParams⟩,
   ⟨"system_control", reSys4, 80, extractSystemParams⟩,
   ⟨"system_control", reSys5, 90, extractSystemParams⟩,
   ⟨"system_control", reSys6, 90, extractSystemParams⟩,
   ⟨"system_control", reSys7, 80, extractSystemParams⟩,
   ⟨"system_control", reSys8, 90, extractSystemParams⟩,
   ⟨"system_control", reSys9, 90, extractSystemParams⟩]

/-- The `"query"` bucket, in registration order (`add_query_patterns`). -/
def queryPatterns : List NluPattern :=
  [⟨"query", reQuery1, 70, extractQueryParams⟩,
   ⟨"query", reQuery2, 70, extractQueryParams⟩,
   ⟨"query", reQuery3, 70, extractQueryParams⟩,
   ⟨"query", reQuery4, 70, extractQueryParams⟩,
   ⟨"query", reQuery5, 70, extractQueryParams⟩,
   ⟨"query", reQuery6, 60, extractQueryParams⟩,
   ⟨"query", reQuery7, 80, extractQueryParams⟩]

/-- The bucket for a given intent-type key of the registry
`HashMap<String, Vec<IntentPattern>>` built by `initialize_patterns`. -/
def nluBucket : String → List NluPattern
  | "greeting" => greetingPatterns
  | "timer" => timerPatterns
  | "weather" => weatherPatterns
  | "app_launch" => appLaunchPatterns
  | "system_control" => systemControlPatterns
  | "query" => queryPatterns
  | _ => []

/-- The key set of the registry map, in registration order. `HashMap` iteration
visits these keys in some unspecified permutation. -/
def nluKeys : List String :=
  ["greeting", "timer", "weather", "app_launch", "system_control", "query"]

/-- A possible iteration order of the registry `HashMap`: any permutation of
its six keys. -/
def ValidOrder (order : List String) : Prop := order.Perm nluKeys

/-- The body of the double loop in `EnhancedNlu::match_patterns`: keep the
candidate whose confidence is strictly greater than the current best
(`pattern.confidence > best_match.1`); the extractor runs on every match. -/
def nluStep (text : Str) (best : Option (String × Nat × ParamMap)) (p : NluPattern) :
    Option (String × Nat × ParamMap) :=
  if reIsMatch p.re text then
    let params := p.extract text
    match best with
    | none => some (p.itype, p.conf, params)
    | some b => if b.2.1 < p.conf then some (p.itype, p.conf, params) else best
  else best

/-- `EnhancedNlu::match_patterns`, with the `HashMap` bucket iteration order
made explicit (`for patterns in self.patterns.values()`). -/
def matchPatterns (order : List String) (text : Str) : Option (String × Nat × ParamMap) :=
  order.foldl (fun best b => (nluBucket b).foldl (nluStep text) best) none

/-- `SystemAction` from `enhanced_nlu.rs`. -/
inductive SystemAction where
  | VolumeUp | VolumeDown | Mute | Unmute | Sleep | Shutdown | Restart
deriving DecidableEq, Repr

/-- `EnhancedIntent` from `enhanced_nlu.rs`. `u64` durations are `Nat` reduced
mod `2^64` where the source multiplies. -/
inductive EnhancedIntent where
  | Greeting (userName : Option String)
  | Timer (durationSecs : Nat) (label : Option String)
  | Weather (location : Option String)
  | AppLaunch (appName : String)
  | Query (question : String)
  | SystemControl (action : SystemAction)
  | Unknown (text : String)
deriving DecidableEq, Repr

/-- `Intent` from `lib.rs`. The source enum declares only `Timer` and
`Unknown`; `EnhancedNlu::parse_intent` additionally constructs
`Intent::Greeting` (a latent type error in the repository — the variant is
clearly intended and is included here; no claim depends on greeting inputs). -/
inductive Intent where
  | Timer (durationSecs : Nat)
  | Greeting (userName : Option String)
  | Unknown (text : String)
deriving DecidableEq, Repr

/-- `EnhancedNlu::build_enhanced_intent`. The timer arm's `u64` unit
multiplication wraps mod `2^64` (release-mode semantics). -/
def buildEnhancedIntent (itype : String) (params : ParamMap) : EnhancedIntent :=
  match itype with
  | "greeting" => .Greeting (some "Aryan")
  | "timer" =>
    let durationSecs :=
      match lookupParam params "number", lookupParam params "unit" with
      | some numStr, some unit =>
        match parseU64 numStr.toList with
        | some num =>
          match unit with
          | "second" => num
          | "minute" => num * 60 % 2 ^ 64
          | "hour" => num * 3600 % 2 ^ 64
          | _ => num
        | none => 10
      | _, _ => 10
    .Timer durationSecs (lookupParam params "label")
  | "weather" => .Weather (lookupParam params "location")
  | "app_launch" => .AppLaunch ((lookupParam params "app_name").getD "unknown")
  | "system_control" =>
    let action :=
      match (lookupParam params "action").getD "unknown" with
      | "volume_up" => SystemAction.VolumeUp
      | "volume_down" => SystemAction.VolumeDown
      | "mute" => SystemAction.Mute
      | "unmute" => SystemAction.Unmute
      | "sleep" => SystemAction.Sleep
      | "shutdown" => SystemAction.Shutdown
      | "restart" => SystemAction.Restart
      | _ => SystemAction.VolumeUp
    .SystemControl action
  | "query" => .Query ((lookupParam params "question").getD "unknown")
  | _ => .Unknown "unknown intent"

/-- The conversion back to the basic `Intent` at the end of
`EnhancedNlu::parse_intent`. -/
def convertToBasic (e : EnhancedIntent) (text : String) : Intent :=
  match e with
  | .Greeting u => .Greeting u
  | .Timer d _ => .Timer d
  | _ => .Unknown text

/-- `EnhancedNlu::parse_intent` (with the registry iteration order explicit and
the confidence threshold a parameter in the same ×100 embedding;
`EnhancedNlu::new` sets it to `0.6`, i.e. `60`). -/
def parseIntent (threshold : Nat) (order : List String) (text : String) : Intent :=
  match matchPatterns order text.toList with
  | some (itype, confidence, params) =>
    if threshold ≤ confidence then convertToBasic (buildEnhancedIntent itype params) text
    else .Unknown text
  | none => .Unknown text

instance (o : List String) : Decidable (ValidOrder o) :=
  decidable_of_iff (o.isPerm nluKeys = true) List.isPerm_iff

/-- All registered patterns (the registry flattened in registration order). -/
def allNluPatterns : List NluPattern := nluKeys.flatMap nluBucket

/-! ### Selection lemmas for the `match_patterns` fold -/

theorem nluStep_isSome (text : Str) (best : Option (String × Nat × ParamMap))
    (p : NluPattern) (h : best.isSome) : (nluStep text best p).isSome := by
  rcases best with _ | b
  · simp at h
  · unfold nluStep
    split
    · split
      · simp
      · split <;> simp
    · simp

theorem foldl_nluStep_isSome (text : Str) (ps : List NluPattern)
    (b : String × Nat × ParamMap) : (ps.foldl (nluStep text) (some b)).isSome := by
  induction ps generalizing b with
  | nil => simp
  | cons p ps ih =>
    simp only [List.foldl_cons]
    rcases hs : nluStep text (some b) p with _ | b2
    · have := nluStep_isSome text (some b) p (by simp)
      simp [hs] at this
    · exact ih b2

theorem foldl_nluStep_none_iff (text : Str) (ps : List NluPattern) :
    ps.foldl (nluStep text) none = none ↔ ∀ p ∈ ps, reIsMatch p.re text = false := by
  induction ps with
  | nil => simp
  | cons p ps ih =>
    simp only [List.foldl_cons]
    rcases hm : reIsMatch p.re text with _ | _
    · have hstep : nluStep text none p = none := by simp [nluStep, hm]
      rw [hstep, ih]
      constructor
      · intro h q hq
        rcases List.mem_cons.mp hq with rfl | hq
        · exact hm
        · exact h q hq
      · intro h q hq
        exact h q (List.mem_cons_of_mem p hq)
    · have hstep : nluStep text none p = some (p.itype, p.conf, p.extract text) := by
        simp [nluStep, hm]
      rw [hstep]
      have hsome := foldl_nluStep_isSome text ps (p.itype, p.conf, p.extract text)
      constructor
      · intro h
        rw [h] at hsome
        simp at hsome
      · intro h
        have := h p (by simp)
        rw [hm] at this
        simp at this

theorem foldl_nluStep_some_spec (text : Str) (ps : List NluPattern)
    (it : String) (c : Nat) (pm : ParamMap)
    (h : ps.foldl (nluStep text) none = some (it, c, pm)) :
    (∃ p ∈ ps, p.itype = it ∧ p.conf = c ∧ p.extract text = pm ∧ reIsMatch p.re text = true) ∧
      ∀ q ∈ ps, reIsMatch q.re text = true → q.conf ≤ c := by
  induction ps using List.reverseRecOn generalizing it c pm with
  | nil => simp at h
  | append_singleton l p ih =>
    rw [List.foldl_append, List.foldl_cons, List.foldl_nil] at h
    rcases hacc : l.foldl (nluStep text) none with _ | b
    · rw [hacc] at h
      have hnomatch := (foldl_nluStep_none_iff text l).mp hacc
      rcases hm : reIsMatch p.re text with _ | _
      · rw [show nluStep text none p = none from by simp [nluStep, hm]] at h
        exact absurd h (by simp)
      · rw [show nluStep text none p = some (p.itype, p.conf, p.extract text) from by
          simp [nluStep, hm]] at h
        obtain ⟨h1, h2, h3⟩ : p.itype = it ∧ p.conf = c ∧ p.extract text = pm := by
          injection h with h'
          exact ⟨congrArg Prod.fst h', congrArg (Prod.fst ∘ Prod.snd) h',
            congrArg (Prod.snd ∘ Prod.snd) h'⟩
        refine ⟨⟨p, by simp, h1, h2, h3, hm⟩, ?_⟩
        intro q hq hqm
        rcases List.mem_append.mp hq with hq | hq
        · exact absurd hqm (by simp [hnomatch q hq])
        · rcases List.mem_singleton.mp hq with rfl
          exact le_of_eq h2
    · rw [hacc] at h
      rcases b with ⟨it0, c0, pm0⟩
      obtain ⟨⟨p0, hp0, hpit, hpc, hppm, hpm⟩, hbound⟩ := ih it0 c0 pm0 hacc
      rcases hm : reIsMatch p.re text with _ | _
      · rw [show nluStep text (some (it0, c0, pm0)) p = some (it0, c0, pm0) from by
          simp [nluStep, hm]] at h
        obtain ⟨h1, h2, h3⟩ : it0 = it ∧ c0 = c ∧ pm0 = pm := by
          injection h with h'
          exact ⟨congrArg Prod.fst h', congrArg (Prod.fst ∘ Prod.snd) h',
            congrArg (Prod.snd ∘ Prod.snd) h'⟩
        subst h1; subst h2; subst h3
        refine ⟨⟨p0, List.mem_append.mpr (Or.inl hp0), hpit, hpc, hppm, hpm⟩, ?_⟩
        intro q hq hqm
        rcases List.mem_append.mp hq with hq | hq
        · exact hbound q hq hqm
        · rcases List.mem_singleton.mp hq with rfl
          exact absurd hqm (by simp [hm])
      · rcases hlt : decide (c0 < p.conf) with _ | _
        · rw [show nluStep text (some (it0, c0, pm0)) p = some (it0, c0, pm0) from by
            simp [nluStep, hm, of_decide_eq_false hlt]] at h
          obtain ⟨h1, h2, h3⟩ : it0 = it ∧ c0 = c ∧ pm0 = pm := by
            injection h with h'
            exact ⟨congrArg Prod.fst h', congrArg (Prod.fst ∘ Prod.snd) h',
              congrArg (Prod.snd ∘ Prod.snd) h'⟩
          subst h1; subst h2; subst h3
          refine ⟨⟨p0, List.mem_append.mpr (Or.inl hp0), hpit, hpc, hppm, hpm⟩, ?_⟩
          intro q hq hqm
          rcases List.mem_append.mp hq with hq | hq
          · exact hbound q hq hqm
          · rcases List.mem_singleton.mp hq with rfl
            exact Nat.le_of_not_lt (of_decide_eq_false hlt)
        · rw [show nluStep text (some (it0, c0, pm0)) p = some (p.itype, p.conf, p.extract text)
            from by simp [nluStep, hm, of_decide_eq_true hlt]] at h
          obtain ⟨h1, h2, h3⟩ : p.itype = it ∧ p.conf = c ∧ p.extract text = pm := by
            injection h with h'
            exact ⟨congrArg Prod.fst h', congrArg (Prod.fst ∘ Prod.snd) h',
              congrArg (Prod.snd ∘ Prod.snd) h'⟩
          refine ⟨⟨p, List.mem_append.mpr (Or.inr (by simp)), h1, h2, h3, hm⟩, ?_⟩
          intro q hq hqm
          rcases List.mem_append.mp hq with hq | hq
          · exact le_trans (hbound q hq hqm) (h2 ▸ Nat.le_of_lt (of_decide_eq_true hlt))
          · rcases List.mem_singleton.mp hq with rfl
            exact le_of_eq h2

theorem matchPatterns_eq_flat (order : List String) (text : Str) :
    matchPatterns order text = (order.flatMap nluBucket).foldl (nluStep text) none := by
  unfold matchPatterns
  generalize (none : Option (String × Nat × ParamMap)) = init
  induction order generalizing init with
  | nil => simp
  | cons b order ih => simp [List.foldl_append, ih]

theorem foldl_nluStep_first_of_max (text : Str) (ps : List NluPattern)
    (it : String) (c : Nat) (pm : ParamMap)
    (h : ps.foldl (nluStep text) none = some (it, c, pm)) :
    ∃ l1 p l2, ps = l1 ++ p :: l2 ∧ p.itype = it ∧ p.conf = c ∧ p.extract text = pm ∧
      reIsMatch p.re text = true ∧
      ∀ q ∈ l1, reIsMatch q.re text = true → q.conf < c := by
  induction ps using List.reverseRecOn generalizing it c pm with
  | nil => simp at h
  | append_singleton l p ih =>
    rw [List.foldl_append, List.foldl_cons, List.foldl_nil] at h
    rcases hacc : l.foldl (nluStep text) none with _ | b
    · rw [hacc] at h
      have hnomatch := (foldl_nluStep_none_iff text l).mp hacc
      rcases hm : reIsMatch p.re text with _ | _
      · rw [show nluStep text none p = none from by simp [nluStep, hm]] at h
        exact absurd h (by simp)
      · rw [show nluStep text none p = some (p.itype, p.conf, p.extract text) from by
          simp [nluStep, hm]] at h
        obtain ⟨h1, h2, h3⟩ : p.itype = it ∧ p.conf = c ∧ p.extract text = pm := by
          injection h with h4
          exact ⟨congrArg Prod.fst h4, congrArg (Prod.fst ∘ Prod.snd) h4,
            congrArg (Prod.snd ∘ Prod.snd) h4⟩
        refine ⟨l, p, [], rfl, h1, h2, h3, hm, ?_⟩
        intro q hq hqm
        rw [hnomatch q hq] at hqm
        simp at hqm
    · rw [hacc] at h
      rcases b with ⟨it0, c0, pm0⟩
      rcases hm : reIsMatch p.re text with _ | _
      · rw [show nluStep text (some (it0, c0, pm0)) p = some (it0, c0, pm0) from by
          simp [nluStep, hm]] at h
        obtain ⟨e1, e2, e3⟩ : it0 = it ∧ c0 = c ∧ pm0 = pm := by
          injection h with h4
          exact ⟨congrArg Prod.fst h4, congrArg (Prod.fst ∘ Prod.snd) h4,
            congrArg (Prod.snd ∘ Prod.snd) h4⟩
        subst e1; subst e2; subst e3
        obtain ⟨l1, p0, l2, hs, f1, f2, f3, f4, f5⟩ := ih it0 c0 pm0 hacc
        exact ⟨l1, p0, l2 ++ [p], by rw [hs]; simp, f1, f2, f3, f4, f5⟩
      · rcases hlt : decide (c0 < p.conf) with _ | _
        · rw [show nluStep text (some (it0, c0, pm0)) p = some (it0, c0, pm0) from by
            simp [nluStep, hm, of_decide_eq_false hlt]] at h
          obtain ⟨e1, e2, e3⟩ : it0 = it ∧ c0 = c ∧ pm0 = pm := by
            injection h with h4
            exact ⟨congrArg Prod.fst h4, congrArg (Prod.fst ∘ Prod.snd) h4,
              congrArg (Prod.snd ∘ Prod.snd) h4⟩
          subst e1; subst e2; subst e3
          obtain ⟨l1, p0, l2, hs, f1, f2, f3, f4, f5⟩ := ih it0 c0 pm0 hacc
          exact ⟨l1, p0, l2 ++ [p], by rw [hs]; simp, f1, f2, f3, f4, f5⟩
        · rw [show nluStep text (some (it0, c0, pm0)) p = some (p.itype, p.conf, p.extract text)
            from by simp [nluStep, hm, of_decide_eq_true hlt]] at h
          obtain ⟨h1, h2, h3⟩ : p.itype = it ∧ p.conf = c ∧ p.extract text = pm := by
            injection h with h4
            exact ⟨congrArg Prod.fst h4, congrArg (Prod.fst ∘ Prod.snd) h4,
              congrArg (Prod.snd ∘ Prod.snd) h4⟩
          obtain ⟨_, hbound⟩ := foldl_nluStep_some_spec text l it0 c0 pm0 hacc
          refine ⟨l, p, [], rfl, h1, h2, h3, hm, ?_⟩
          intro q hq hqm
          exact lt_of_le_of_lt (hbound q hq hqm) (h2 ▸ of_decide_eq_true hlt)

theorem validOrder_mem_flat {order : List String} (h : ValidOrder order) (p : NluPattern) :
    p ∈ order.flatMap nluBucket ↔ p ∈ allNluPatterns :=
  (List.Perm.flatMap_right nluBucket h).mem_iff

/-- **C2** (amended). For every possible iteration order of the registry map
and every input text, `parse_intent` selects, among all patterns (across every
intent type) that match the text, one of **maximal** confidence — namely the
first pattern in the map's iteration order to attain that maximum (all earlier
matches are strictly lower). Within one intent type the first-registered of
equally-confident matching patterns therefore wins, but a tie between patterns
of *different* intent types is resolved by the map's unspecified bucket
iteration order, not by registration order. If nothing matches, or the winning
confidence is below the threshold (default 0.6, embedded as 60), the result is
`Unknown` containing the input text; otherwise it is the converted intent
built from the winning pattern's type and extracted parameters. -/
theorem c2_parse_intent_selection :
    ∀ order : List String, ValidOrder order → ∀ text : String,
      (matchPatterns order text.toList = none →
        (∀ p ∈ allNluPatterns, reIsMatch p.re text.toList = false) ∧
          parseIntent 60 order text = .Unknown text) ∧
      ∀ it c pm, matchPatterns order text.toList = some (it, c, pm) →
        (∃ p ∈ allNluPatterns, p.itype = it ∧ p.conf = c ∧ p.extract text.toList = pm ∧
            reIsMatch p.re text.toList = true) ∧
        (∀ q ∈ allNluPatterns, reIsMatch q.re text.toList = true → q.conf ≤ c) ∧
        (∃ l1 p l2, order.flatMap nluBucket = l1 ++ p :: l2 ∧ p.itype = it ∧ p.conf = c ∧
          p.extract text.toList = pm ∧ reIsMatch p.re text.toList = true ∧
          ∀ q ∈ l1, reIsMatch q.re text.toList = true → q.conf < c) ∧
        (c < 60 → parseIntent 60 order text = .Unknown text) ∧
        (60 ≤ c → parseIntent 60 order text =
          convertToBasic (buildEnhancedIntent it pm) text) := by
  intro order hord text
  constructor
  · intro hnone
    have hflat := hnone
    rw [matchPatterns_eq_flat] at hflat
    have hall := (foldl_nluStep_none_iff text.toList (order.flatMap nluBucket)).mp hflat
    refine ⟨fun p hp => hall p ((validOrder_mem_flat hord p).mpr hp), ?_⟩
    have hnone2 : matchPatterns order text.data = none := hnone
    simp [parseIntent, hnone2]
  · intro it c pm hsome
    have hflat := hsome
    rw [matchPatterns_eq_flat] at hflat
    obtain ⟨⟨p, hp, hfields⟩, hbound⟩ :=
      foldl_nluStep_some_spec text.toList (order.flatMap nluBucket) it c pm hflat
    refine ⟨⟨p, (validOrder_mem_flat hord p).mp hp, hfields⟩, ?_, ?_, ?_, ?_⟩
    · intro q hq hqm
      exact hbound q ((validOrder_mem_flat hord q).mpr hq) hqm
    · exact foldl_nluStep_first_of_max text.toList (order.flatMap nluBucket) it c pm hflat
    · intro hlt
      have hsome2 : matchPatterns order text.data = some (it, c, pm) := hsome
      simp [parseIntent, hsome2, Nat.not_le.mpr hlt]
    · intro hge
      have hsome2 : matchPatterns order text.data = some (it, c, pm) := hsome
      simp [parseIntent, hsome2, hge]

/-- Counterexample to **C2** as stated: on the input
`"what's the weather set a timer for 5 minutes"` both the first timer pattern
and the first weather pattern match with (maximal) confidence 0.9; the timer
pattern is registered first, yet under the second valid iteration order of the
registry `HashMap` (weather bucket first) the weather pattern wins the tie and
the parse result differs — the tie is **not** won by the first-registered
pattern. -/
theorem c2_counterexample_order_dependent_tie :
    ValidOrder nluKeys ∧
    ValidOrder ["weather", "greeting", "timer", "app_launch", "system_control", "query"] ∧
    reIsMatch reTimer1 "what's the weather set a timer for 5 minutes".toList = true ∧
    reIsMatch reWeather1 "what's the weather set a timer for 5 minutes".toList = true ∧
    parseIntent 60 nluKeys "what's the weather set a timer for 5 minutes" = .Timer 300 ∧
    parseIntent 60 ["weather", "greeting", "timer", "app_launch", "system_control", "query"]
        "what's the weather set a timer for 5 minutes" =
      .Unknown "what's the weather set a timer for 5 minutes" :=
  ⟨by decide, by decide, by decide, by decide, by decide, by decide⟩

/-- Witness for the amended C2 theorem: concrete instantiation on
`"set a timer for 5 minutes"` under the registration-order iteration. -/
theorem c2_parse_intent_selection_witness :
    ValidOrder nluKeys ∧
    matchPatterns nluKeys "set a timer for 5 minutes".toList =
      some ("timer", 90, [("label", "5 minutes"), ("unit", "minute"), ("number", "5")]) ∧
    (∀ q ∈ allNluPatterns,
        reIsMatch q.re "set a timer for 5 minutes".toList = true → q.conf ≤ 90) ∧
    parseIntent 60 nluKeys "set a timer for 5 minutes" =
      convertToBasic (buildEnhancedIntent "timer"
        [("label", "5 minutes"), ("unit", "minute"), ("number", "5")])
        "set a timer for 5 minutes" := by
  refine ⟨by decide, by decide, ?_, ?_⟩
  · exact fun q hq hqm =>
      (((c2_parse_intent_selection nluKeys (by decide) "set a timer for 5 minutes").2
        "timer" 90 [("label", "5 minutes"), ("unit", "minute"), ("number", "5")]
        (by decide)).2.1) q hq hqm
  · exact (((c2_parse_intent_selection nluKeys (by decide) "set a timer for 5 minutes").2
      "timer" 90 [("label", "5 minutes"), ("unit", "minute"), ("number", "5")]
      (by decide)).2.2.2.2) (by decide)

/-- If some registered pattern matches and every matching registered pattern
agrees on intent type, confidence and extracted parameters, then
`match_patterns` returns that triple under **every** iteration order. -/
theorem matchPatterns_unique (order : List String) (hord : ValidOrder order) (text : Str)
    (p : NluPattern) (hp : p ∈ allNluPatterns) (hm : reIsMatch p.re text = true)
    (huniq : ∀ q ∈ allNluPatterns, reIsMatch q.re text = true →
      q.itype = p.itype ∧ q.conf = p.conf ∧ q.extract text = p.extract text) :
    matchPatterns order text = some (p.itype, p.conf, p.extract text) := by
  rcases hres : matchPatterns order text with _ | ⟨it, c, pm⟩
  · rw [matchPatterns_eq_flat] at hres
    have hall := (foldl_nluStep_none_iff text (order.flatMap nluBucket)).mp hres
    have := hall p ((validOrder_mem_flat hord p).mpr hp)
    rw [hm] at this
    exact absurd this (by simp)
  · rw [matchPatterns_eq_flat] at hres
    obtain ⟨⟨q, hq, hqit, hqc, hqpm, hqm⟩, _⟩ :=
      foldl_nluStep_some_spec text (order.flatMap nluBucket) it c pm hres
    obtain ⟨e1, e2, e3⟩ := huniq q ((validOrder_mem_flat hord q).mp hq) hqm
    rw [← hqit, ← hqc, ← hqpm, e1, e2, e3]

/-- Every registered pattern of intent type `"timer"` carries the extractor
`extract_timer_params` (there are exactly five, all added by
`add_timer_patterns`). -/
theorem timer_patterns_extractor (p : NluPattern) (hp : p ∈ allNluPatterns)
    (ht : p.itype = "timer") : p.extract = extractTimerParams := by
  have hmem : p ∈ greetingPatterns ++ timerPatterns ++ weatherPatterns ++ appLaunchPatterns
      ++ systemControlPatterns ++ queryPatterns := by
    simpa [allNluPatterns, nluKeys, nluBucket, List.flatMap] using hp
  fin_cases hmem <;> first
    | rfl
    | exact absurd ht (by simp [greetingPatterns, weatherPatterns, appLaunchPatterns,
        systemControlPatterns, queryPatterns])

/-- If the duration regex of `extract_timer_params` finds no
`<digits> (second|minute|hour)` substring, the extracted parameter map has no
`"number"` entry (only possibly a `"label"`). -/
theorem extractTimerParams_no_number (text : Str)
    (h : research reDurExtract text = none) :
    lookupParam (extractTimerParams text) "number" = none := by
  unfold extractTimerParams
  rw [h]
  rcases hl : research reLabelExtract text with _ | env
  · rfl
  · split
    · simp_all
    · split <;> rfl

/-- **C8** (amended): timer duration extraction converts units as seconds×1,
minutes×60, hours×3600 (the `u64` products taken below `2^64`, where the
source cannot overflow), applied to the **leftmost** `<digits> unit` substring
the extraction regex finds in the text (not to every such substring — see the
counterexample); and the three concrete utterances parse — under every
iteration order of the registry — to Timer intents carrying 300, 30 and 7200
seconds. -/
theorem c8_timer_unit_conversion :
    (∀ (params : ParamMap) (s : String) (n : Nat),
      lookupParam params "number" = some s → parseU64 s.toList = some n →
      ((lookupParam params "unit" = some "second") →
        buildEnhancedIntent "timer" params = .Timer n (lookupParam params "label")) ∧
      ((lookupParam params "unit" = some "minute") → n * 60 < 2 ^ 64 →
        buildEnhancedIntent "timer" params = .Timer (n * 60) (lookupParam params "label")) ∧
      ((lookupParam params "unit" = some "hour") → n * 3600 < 2 ^ 64 →
        buildEnhancedIntent "timer" params = .Timer (n * 3600) (lookupParam params "label"))) ∧
    (∀ (text : Str) (env : Caps) (num unit : Str),
      research reDurExtract text = some env →
      getCap env 1 = some num → getCap env 2 = some unit →
      lookupParam (extractTimerParams text) "number" = some (String.mk num) ∧
      lookupParam (extractTimerParams text) "unit" = some (String.mk unit)) ∧
    ∀ order, ValidOrder order →
      parseIntent 60 order "set a timer for 5 minutes" = .Timer 300 ∧
      parseIntent 60 order "remind me in 30 seconds" = .Timer 30 ∧
      parseIntent 60 order "timer 2 hours" = .Timer 7200 := by
  refine ⟨?_, ?_, ?_⟩
  case refine_2 =>
    intro text env num unit hre hnum hunit
    simp only [extractTimerParams, hre, hnum, hunit]
    split
    · split
      · exact ⟨rfl, rfl⟩
      · exact ⟨rfl, rfl⟩
    · exact ⟨rfl, rfl⟩
  case refine_1 =>
    intro params s n hn hp
    have hp2 : parseU64 s.data = some n := hp
    refine ⟨?_, ?_, ?_⟩
    · intro hu
      simp [buildEnhancedIntent, hn, hu, hp2]
    · intro hu hlt
      simp [buildEnhancedIntent, hn, hu, hp2, Nat.mod_eq_of_lt hlt]
      exact hlt
    · intro hu hlt
      simp [buildEnhancedIntent, hn, hu, hp2, Nat.mod_eq_of_lt hlt]
      exact hlt
  case refine_3 =>
    intro order hord
    refine ⟨?_, ?_, ?_⟩
    · have hm := matchPatterns_unique order hord "set a timer for 5 minutes".toList
        ⟨"timer", reTimer1, 90, extractTimerParams⟩
        (by simp [allNluPatterns, nluKeys, nluBucket, timerPatterns])
        (by decide) (by decide)
      have hm2 : matchPatterns order "set a timer for 5 minutes".toList =
          some ("timer", 90, extractTimerParams "set a timer for 5 minutes".toList) := hm
      simp only [parseIntent, hm2]
      decide
    · have hm := matchPatterns_unique order hord "remind me in 30 seconds".toList
        ⟨"timer", reTimer2, 80, extractTimerParams⟩
        (by simp [allNluPatterns, nluKeys, nluBucket, timerPatterns])
        (by decide) (by decide)
      have hm2 : matchPatterns order "remind me in 30 seconds".toList =
          some ("timer", 80, extractTimerParams "remind me in 30 seconds".toList) := hm
      simp only [parseIntent, hm2]
      decide
    · have hm := matchPatterns_unique order hord "timer 2 hours".toList
        ⟨"timer", reTimer3, 70, extractTimerParams⟩
        (by simp [allNluPatterns, nluKeys, nluBucket, timerPatterns])
        (by decide) (by decide)
      have hm2 : matchPatterns order "timer 2 hours".toList =
          some ("timer", 70, extractTimerParams "timer 2 hours".toList) := hm
      simp only [parseIntent, hm2]
      decide

/-- Counterexample to **C8** as stated: the claim quantifies over every input
containing `<n> seconds`; the input `"set a timer for 5 minutes and 30
seconds"` contains `"30 seconds"`, yet the extractor takes the leftmost
duration phrase (`"5 minutes"`) and the resulting Timer intent carries 300
seconds, not 30. -/
theorem c8_counterexample_leftmost_only :
    strContains "set a timer for 5 minutes and 30 seconds".toList "30 seconds".toList = true ∧
    parseIntent 60 nluKeys "set a timer for 5 minutes and 30 seconds" = .Timer 300 ∧
    ¬ parseIntent 60 nluKeys "set a timer for 5 minutes and 30 seconds" = .Timer 30 :=
  ⟨by decide, by decide, by decide⟩

/-- Witness for C8: the unit-conversion arm applied at the concrete parameter
map `{number ↦ 5, unit ↦ minute}`, the leftmost-extraction arm applied at
`"5 minutes"`, and the concrete parses under the registration-order
iteration. -/
theorem c8_timer_unit_conversion_witness :
    buildEnhancedIntent "timer" [("number", "5"), ("unit", "minute")] =
      .Timer 300 (lookupParam [("number", "5"), ("unit", "minute")] "label") ∧
    lookupParam (extractTimerParams "5 minutes".toList) "number" = some "5" ∧
    parseIntent 60 nluKeys "set a timer for 5 minutes" = .Timer 300 ∧
    parseIntent 60 nluKeys "remind me in 30 seconds" = .Timer 30 ∧
    parseIntent 60 nluKeys "timer 2 hours" = .Timer 7200 :=
  ⟨(c8_timer_unit_conversion.1 [("number", "5"), ("unit", "minute")] "5" 5
      (by rfl) (by rfl)).2.1 (by rfl) (by decide),
   (c8_timer_unit_conversion.2.1 "5 minutes".toList
      [(2, "minute".toList), (1, "5".toList)] "5".toList "minute".toList
      (by decide) (by decide) (by decide)).1,
   (c8_timer_unit_conversion.2.2 nluKeys (by decide)).1,
   (c8_timer_unit_conversion.2.2 nluKeys (by decide)).2.1,
   (c8_timer_unit_conversion.2.2 nluKeys (by decide)).2.2⟩

/-- **C10** (amended). Whenever the *winning* match of `parse_intent` is of
intent type `"timer"` with confidence at or above the threshold, and the
extraction regex `(\d+)\s+(second|minute|hour)s?` finds nothing in the text,
the result is `Timer` with the hard-coded default `duration_secs = 10`,
ignoring any number present; in particular `"set timer 42"` (bare-number timer
pattern) yields `Timer 10` under every iteration order. (As stated, the claim
quantified over *every* input in which some timer pattern matches; it fails
when a higher-confidence non-timer pattern also matches — see the
counterexample.) -/
theorem c10_default_timer_duration :
    (∀ order, ValidOrder order → ∀ (text : String) (c : Nat) (pm : ParamMap),
      matchPatterns order text.toList = some ("timer", c, pm) → 60 ≤ c →
      research reDurExtract text.toList = none →
      parseIntent 60 order text = .Timer 10) ∧
    ∀ order, ValidOrder order → parseIntent 60 order "set timer 42" = .Timer 10 := by
  constructor
  · intro order hord text c pm hm hge hdur
    have hflat := hm
    rw [matchPatterns_eq_flat] at hflat
    obtain ⟨⟨p, hp, hpit, hpc, hppm, hpmatch⟩, _⟩ :=
      foldl_nluStep_some_spec text.toList (order.flatMap nluBucket) "timer" c pm hflat
    have hext : p.extract = extractTimerParams :=
      timer_patterns_extractor p ((validOrder_mem_flat hord p).mp hp) hpit
    have hpm2 : pm = extractTimerParams text.toList := by rw [← hppm, hext]
    have hnum : lookupParam pm "number" = none := by
      rw [hpm2]
      exact extractTimerParams_no_number text.toList hdur
    have hbuild : buildEnhancedIntent "timer" pm = .Timer 10 (lookupParam pm "label") := by
      unfold buildEnhancedIntent
      rw [hnum]
      rcases lookupParam pm "unit" with _ | u <;> rfl
    simp only [parseIntent, hm, hge, if_true, if_pos hge, hbuild]
    rfl
  · intro order hord
    have hm := matchPatterns_unique order hord "set timer 42".toList
      ⟨"timer", reTimer5, 60, extractTimerParams⟩
      (by simp [allNluPatterns, nluKeys, nluBucket, timerPatterns])
      (by decide) (by decide)
    have hm2 : matchPatterns order "set timer 42".toList =
        some ("timer", 60, extractTimerParams "set timer 42".toList) := hm
    simp only [parseIntent, hm2]
    decide

/-- Counterexample to **C10** as stated: in `"open set timer 42"` the
bare-number timer pattern matches and no `<digits> unit` substring occurs, yet
`parse_intent` returns `Unknown` (the app-launch pattern `open\s+(.+)` wins
with confidence 0.9), not `Timer 10`. -/
theorem c10_counterexample_nontimer_wins :
    ValidOrder nluKeys ∧
    reIsMatch reTimer5 "open set timer 42".toList = true ∧
    research reDurExtract "open set timer 42".toList = none ∧
    parseIntent 60 nluKeys "open set timer 42" = .Unknown "open set timer 42" ∧
    ¬ parseIntent 60 nluKeys "open set timer 42" = .Timer 10 :=
  ⟨by decide, by decide, by decide, by decide, by decide⟩

/-- Witness for the amended C10 theorem: the concrete instantiation at
`"set timer 42"` under the registration-order iteration. -/
theorem c10_default_timer_duration_witness :
    parseIntent 60 nluKeys "set timer 42" = .Timer 10 :=
  c10_default_timer_duration.2 nluKeys (by decide)

/-! ## Session Orchestrator (`lib.rs`, `SessionManager::run_once`) -/

/-- `EngineError` from `lib.rs`. -/
inductive EngineError where
  | Audio (msg : String)
  | Wake (msg : String)
  | Asr (msg : String)
  | Tts (msg : String)
deriving DecidableEq, Repr

/-- `TranscriptFragment` from `lib.rs`. -/
structure TranscriptFragment where
  text : String
  isFinal : Bool
deriving DecidableEq, Repr

/-- `EngineEvent` from `lib.rs`. -/
inductive EngineEvent where
  | WakeDetected
  | PartialTranscript (fragment : TranscriptFragment)
  | FinalTranscript (text : String)
  | TtsStarted
  | TtsFinished
  | IntentRecognized (intent : Intent)
  | ExecutionStarted (name : String)
  | ExecutionFinished (name : String)
  | Notification (message : String)
deriving DecidableEq, Repr

/-- A configured engine set for `SessionManager`: the observable behaviour of
each trait object for one session. An engine that emits events before
returning is a pair (events emitted through the channel, result); channel
sends themselves are modelled as succeeding (the caller holds the receiver).
`NluEngine::parse_intent` is infallible in the source trait. -/
structure Engines where
  wake : Except EngineError Unit
  asr : List EngineEvent × Except EngineError String
  nlu : String → Intent
  exec : Intent → List EngineEvent × Except EngineError String
  tts : String → List EngineEvent × Except EngineError Unit

/-- The five pipeline stages of `run_once`, in source order. -/
inductive Stage where
  | wake | asr | nlu | exec | tts
deriving DecidableEq, Repr

/-- `SessionManager::run_once`: await wake, send `WakeDetected`; await ASR
(which emits its own events first), send `FinalTranscript`; parse the intent,
send `IntentRecognized`; await the executor; await TTS. Every `?` is an early
return. The result records (stages run, events sent through `event_tx` in
order, returned value). -/
def runOnce (e : Engines) : List Stage × List EngineEvent × Except EngineError Unit :=
  match e.wake with
  | .error er => ([.wake], [], .error er)
  | .ok _ =>
    match e.asr with
    | (aev, .error er) => ([.wake, .asr], .WakeDetected :: aev, .error er)
    | (aev, .ok finalText) =>
      let intent := e.nlu finalText
      let evs1 := .WakeDetected :: aev ++ [.FinalTranscript finalText, .IntentRecognized intent]
      match e.exec intent with
      | (xev, .error er) => ([.wake, .asr, .nlu, .exec], evs1 ++ xev, .error er)
      | (xev, .ok speakText) =>
        match e.tts speakText with
        | (tev, .error er) => ([.wake, .asr, .nlu, .exec, .tts], evs1 ++ xev ++ tev, .error er)
        | (tev, .ok _) => ([.wake, .asr, .nlu, .exec, .tts], evs1 ++ xev ++ tev, .ok ())

/-- **C1**: `run_once` executes the stages in strict sequence (the stage trace
is always an initial segment of wake→asr→nlu→exec→tts), emits `WakeDetected`
right after a successful wake, the ASR's own events then `FinalTranscript`
after a successful ASR, and `IntentRecognized` after intent resolution; and
whenever a stage returns an error, `run_once` returns exactly that error with
no later stage in the trace and no later events emitted. -/
theorem c1_run_once_pipeline (e : Engines) :
    (∃ k, (runOnce e).1 = ([.wake, .asr, .nlu, .exec, .tts] : List Stage).take k) ∧
    (∀ er, e.wake = .error er → runOnce e = ([.wake], [], .error er)) ∧
    (∀ er aev, e.wake = .ok () → e.asr = (aev, .error er) →
      runOnce e = ([.wake, .asr], .WakeDetected :: aev, .error er)) ∧
    (∀ er aev t xev, e.wake = .ok () → e.asr = (aev, .ok t) →
      e.exec (e.nlu t) = (xev, .error er) →
      runOnce e = ([.wake, .asr, .nlu, .exec],
        .WakeDetected :: aev ++ [.FinalTranscript t, .IntentRecognized (e.nlu t)] ++ xev,
        .error er)) ∧
    (∀ er aev t xev sp tev, e.wake = .ok () → e.asr = (aev, .ok t) →
      e.exec (e.nlu t) = (xev, .ok sp) → e.tts sp = (tev, .error er) →
      runOnce e = ([.wake, .asr, .nlu, .exec, .tts],
        .WakeDetected :: aev ++ [.FinalTranscript t, .IntentRecognized (e.nlu t)] ++ xev ++ tev,
        .error er)) ∧
    (∀ aev t xev sp tev, e.wake = .ok () → e.asr = (aev, .ok t) →
      e.exec (e.nlu t) = (xev, .ok sp) → ∀ u, e.tts sp = (tev, .ok u) →
      runOnce e = ([.wake, .asr, .nlu, .exec, .tts],
        .WakeDetected :: aev ++ [.FinalTranscript t, .IntentRecognized (e.nlu t)] ++ xev ++ tev,
        .ok ())) := by
  obtain ⟨w, asrp, nlu, exec, tts⟩ := e
  refine ⟨?_, ?_, ?_, ?_, ?_, ?_⟩
  · rcases w with er | u
    · exact ⟨1, rfl⟩
    rcases asrp with ⟨aev, er | t⟩
    · exact ⟨2, rfl⟩
    rcases hx : exec (nlu t) with ⟨xev, er | sp⟩
    · exact ⟨4, by simp [runOnce, hx]⟩
    rcases ht : tts sp with ⟨tev, er | u2⟩
    · exact ⟨5, by simp [runOnce, hx, ht]⟩
    · exact ⟨5, by simp [runOnce, hx, ht]⟩
  · intro er hw
    simp only at hw
    subst hw
    rfl
  · intro er aev hw ha
    simp only at hw ha
    subst hw
    subst ha
    rfl
  · intro er aev t xev hw ha hx
    simp only at hw ha hx
    subst hw
    subst ha
    simp [runOnce, hx]
  · intro er aev t xev sp tev hw ha hx ht
    simp only at hw ha hx ht
    subst hw
    subst ha
    simp [runOnce, hx, ht]
  · intro aev t xev sp tev hw ha hx u ht
    simp only at hw ha hx ht
    subst hw
    subst ha
    simp [runOnce, hx, ht]

/-- Witness for C1: a failing-ASR engine set stops after the ASR stage with
that error and only `WakeDetected` plus the ASR's partial emitted; a fully
successful engine set runs all five stages in order. -/
theorem c1_run_once_pipeline_witness :
    runOnce ⟨.ok (), ([.PartialTranscript ⟨"he", false⟩], .error (.Asr "mic died")),
        fun t => .Unknown t, fun _ => ([], .ok "Okay."), fun _ => ([.TtsStarted, .TtsFinished], .ok ())⟩ =
      ([.wake, .asr], [.WakeDetected, .PartialTranscript ⟨"he", false⟩], .error (.Asr "mic died")) ∧
    runOnce ⟨.ok (), ([], .ok "hello"), fun t => .Unknown t,
        fun _ => ([.ExecutionStarted "x"], .ok "Okay."),
        fun _ => ([.TtsStarted, .TtsFinished], .ok ())⟩ =
      ([.wake, .asr, .nlu, .exec, .tts],
        [.WakeDetected, .FinalTranscript "hello", .IntentRecognized (.Unknown "hello"),
          .ExecutionStarted "x", .TtsStarted, .TtsFinished], .ok ()) :=
  ⟨(c1_run_once_pipeline _).2.2.1 (.Asr "mic died") [.PartialTranscript ⟨"he", false⟩] rfl rfl,
   by
    have h := (c1_run_once_pipeline
      (⟨.ok (), ([], .ok "hello"), fun t => .Unknown t,
        fun _ => ([.ExecutionStarted "x"], .ok "Okay."),
        fun _ => ([.TtsStarted, .TtsFinished], .ok ())⟩ : Engines)).2.2.2.2.2
      [] "hello" [.ExecutionStarted "x"] "Okay." [.TtsStarted, .TtsFinished] rfl rfl rfl () rfl
    simpa using h⟩

/-! ## Voice-Activity Detector (`streaming_asr.rs`) -/

/-- `VoiceActivityDetector` from `streaming_asr.rs`. `f32` samples and
thresholds are embedded as exact rationals; the comparisons the claims examine
(0 vs a positive threshold, 0.5 vs 0.4) are exact in `f32` as well. -/
structure VoiceActivityDetector where
  energyThreshold : ℚ
  zcrThreshold : ℚ
  minSpeechDurationMs : Nat
  maxSilenceDurationMs : Nat
  frameSize : Nat

/-- `VoiceActivityDetector::new` (the `f32` literals 0.01 and 0.3 are taken at
their decimal values; no claim compares against them at a precision where the
`f32` rounding differs). -/
def VoiceActivityDetector.new : VoiceActivityDetector :=
  ⟨1/100, 3/10, 300, 1500, 480⟩

/-- Sum of squared samples (the fold inside `calculate_energy`). -/
def sumSquares (frame : List ℚ) : ℚ := (frame.map (fun x => x * x)).sum

/-- `sum_squares / frame.len()` — the quantity whose square root
`calculate_energy` returns. The energy itself is `Real.sqrt` of this value
(see `detectVoice_iff_sqrt` inside the C9 theorem); `detect_voice` is embedded
by the equivalent squared comparison so that it stays executable. -/
def meanSquares (frame : List ℚ) : ℚ := sumSquares frame / frame.length

/-- The zero-crossing count of `calculate_zcr`: positions `i ∈ [1, len)` with
`(frame[i] >= 0) != (frame[i-1] >= 0)`. -/
def zeroCrossings : List ℚ → Nat
  | [] => 0
  | [_] => 0
  | a :: b :: rest =>
    (if (decide (0 ≤ b)) != (decide (0 ≤ a)) then 1 else 0) + zeroCrossings (b :: rest)

/-- `calculate_zcr`: crossings divided by frame length. -/
def calculateZcr (frame : List ℚ) : ℚ := zeroCrossings frame / frame.length

/-- `VoiceActivityDetector::detect_voice`: short frames are inactive; a
full-size frame is active iff `energy > energy_threshold` and
`zcr > zcr_threshold`. The source compares `sqrt(meanSquares) > t`; since both
sides are nonnegative when `t ≥ 0`, this is embedded as the equivalent
`t < 0 ∨ t² < meanSquares` (proved equivalent to the square-root comparison in
the C9 theorem). -/
def detectVoice (v : VoiceActivityDetector) (frame : List ℚ) : Bool :=
  if frame.length < v.frameSize then false
  else
    (decide (v.energyThreshold < 0) || decide (v.energyThreshold ^ 2 < meanSquares frame))
      && decide (v.zcrThreshold < calculateZcr frame)

theorem sumSquares_nonneg (frame : List ℚ) : 0 ≤ sumSquares frame := by
  unfold sumSquares
  induction frame with
  | nil => simp
  | cons a l ih =>
    simp only [List.map_cons, List.sum_cons]
    exact add_nonneg (mul_self_nonneg a) ih

theorem meanSquares_nonneg (frame : List ℚ) : 0 ≤ meanSquares frame :=
  div_nonneg (sumSquares_nonneg frame) (by positivity)

/-- The squared comparison used by `detectVoice` agrees with the source's
`sqrt(x) > t` whenever `x ≥ 0`. -/
theorem sqrtGt_iff (x t : ℚ) :
    (t < 0 ∨ t ^ 2 < x) ↔ ((t : ℝ) < Real.sqrt ((x : ℚ) : ℝ)) := by
  rcases lt_or_le t 0 with ht | ht
  · simp only [ht, true_or, true_iff]
    calc ((t : ℚ) : ℝ) < 0 := by exact_mod_cast ht
    _ ≤ Real.sqrt x := Real.sqrt_nonneg _
  · rw [Real.lt_sqrt (by exact_mod_cast ht)]
    constructor
    · intro h
      rcases h with h | h
      · exact absurd h (not_lt.mpr ht)
      · exact_mod_cast h
    · intro h
      exact Or.inr (by exact_mod_cast h)

/-- **C9**: a frame of (at least) the configured frame size is classified
active exactly when its RMS energy `sqrt(sumSquares/len)` strictly exceeds the
energy threshold AND its zero-crossing rate strictly exceeds the ZCR
threshold; an all-zero frame is inactive under the default detector; and a
constant-amplitude-0.5 frame has RMS energy greater than 0.4. -/
theorem c9_vad_energy_zcr (v : VoiceActivityDetector) (frame : List ℚ)
    (h : v.frameSize ≤ frame.length) :
    (detectVoice v frame = true ↔
      (((v.energyThreshold : ℚ) : ℝ) < Real.sqrt ((meanSquares frame : ℚ) : ℝ) ∧
        v.zcrThreshold < calculateZcr frame)) ∧
    (∀ n : Nat, detectVoice .new (List.replicate n (0 : ℚ)) = false) ∧
    (∀ n : Nat, 0 < n →
      (0.4 : ℝ) < Real.sqrt ((meanSquares (List.replicate n (1/2 : ℚ)) : ℚ) : ℝ)) := by
  refine ⟨?_, ?_, ?_⟩
  · unfold detectVoice
    rw [if_neg (not_lt.mpr h)]
    rw [← sqrtGt_iff (meanSquares frame) v.energyThreshold]
    simp [decide_eq_true_iff]
  · intro n
    unfold detectVoice
    rcases Nat.lt_or_ge (List.replicate n (0 : ℚ)).length VoiceActivityDetector.new.frameSize
      with hl | hl
    · rw [if_pos hl]
    · rw [if_neg (not_lt.mpr hl)]
      have hms : meanSquares (List.replicate n (0 : ℚ)) = 0 := by
        unfold meanSquares sumSquares
        simp [List.map_replicate]
      have : ¬ (VoiceActivityDetector.new.energyThreshold ^ 2 <
          meanSquares (List.replicate n (0 : ℚ))) := by
        rw [hms]
        norm_num [VoiceActivityDetector.new]
      have ht : ¬ (VoiceActivityDetector.new.energyThreshold < 0) := by
        norm_num [VoiceActivityDetector.new]
      simp [this, ht]
  · intro n hn
    have hms : meanSquares (List.replicate n (1/2 : ℚ)) = 1/4 := by
      unfold meanSquares sumSquares
      rw [List.map_replicate, List.sum_replicate]
      simp only [List.length_replicate, nsmul_eq_mul]
      have hn2 : (n : ℚ) ≠ 0 := Nat.cast_ne_zero.mpr (Nat.pos_iff_ne_zero.mp hn)
      field_simp
      ring
    rw [hms]
    have : ((((1 : ℚ)/4) : ℚ) : ℝ) = (1/2 : ℝ) ^ 2 := by norm_num
    rw [this, Real.sqrt_sq (by norm_num)]
    norm_num

/-- Witness for C9: the default detector on concrete full-size frames — an
all-zero 480-sample frame is inactive, and the constant-0.5 frame's RMS energy
exceeds 0.4. -/
theorem c9_vad_energy_zcr_witness :
    detectVoice .new (List.replicate 480 (0 : ℚ)) = false ∧
    (0.4 : ℝ) < Real.sqrt ((meanSquares (List.replicate 480 (1/2 : ℚ)) : ℚ) : ℝ) :=
  ⟨(c9_vad_energy_zcr .new (List.replicate 480 0)
      (by rw [List.length_replicate]; exact Nat.le.refl)).2.1 480,
   (c9_vad_energy_zcr .new (List.replicate 480 0)
      (by rw [List.length_replicate]; exact Nat.le.refl)).2.2 480 (by norm_num)⟩

/-! ## Plugin Runtime (`plugin_system.rs`) -/

/-- Primitive `serde_json::Value`s. -/
inductive JPrim where
  | num (n : Int)
  | str (s : String)
  | boolean (b : Bool)
deriving DecidableEq, Repr

/-- `serde_json::Value`, restricted to the shapes the modelled code paths
construct: primitives and one-level objects of primitives (the weather
plugin's payload; no modelled path builds deeper nesting). -/
inductive JValue where
  | prim (p : JPrim)
  | obj (fields : List (String × JPrim))
deriving DecidableEq, Repr

/-- `Permission` from `plugin_system.rs`. -/
inductive Permission where
  | FileSystem (paths : List String)
  | Network (domains : List String)
  | SystemCommands (commands : List String)
  | AudioAccess
  | ConfigAccess
  | AllPermissions
deriving DecidableEq, Repr

/-- `ParameterDef` from `plugin_system.rs`. -/
structure ParameterDef where
  name : String
  paramType : String
  required : Bool
  description : String
deriving DecidableEq, Repr

/-- One entry of a plugin's `patterns: Vec<String>`: the raw pattern string
together with the (deterministic) result of compiling its lowercased form with
`regex::Regex::new` — carried as data because `matches_pattern` compiles at
match time and falls back to substring search when compilation fails. -/
structure PatternString where
  raw : String
  compiledLower : Option RE

/-- `IntentPattern` from `plugin_system.rs` (the plugin-manifest one; the
`f32` confidence is embedded ×100 and is not consulted by dispatch). -/
structure PluginIntentPattern where
  name : String
  patterns : List PatternString
  confidence : Nat
  parameters : List ParameterDef

/-- `PluginManifest` from `plugin_system.rs`. -/
structure PluginManifest where
  name : String
  version : String
  description : String
  author : String
  entryPoint : String
  permissions : List Permission
  dependencies : List String
  intentPatterns : List PluginIntentPattern
  /-- The optional JSON config schema, kept as its JSON text: no modelled
  operation ever reads it. -/
  configSchema : Option String

/-- `PluginError` from `plugin_system.rs`. -/
inductive PluginError where
  | NotFound (msg : String)
  | PermissionDenied (msg : String)
  | InvalidConfig (msg : String)
  | ExecutionFailed (msg : String)
  | Io (msg : String)
  | Serialization (msg : String)
deriving DecidableEq, Repr

/-- `PluginEvent` from `plugin_system.rs`. -/
inductive PluginEvent where
  | Log (level message : String)
  | Notification (title body : String)
  | StateChange (key : String) (value : JValue)
  | CustomEvent (eventType : String) (data : JValue)
deriving DecidableEq, Repr

/-- `PluginResult` from `plugin_system.rs`. -/
structure PluginResult where
  success : Bool
  message : String
  data : Option JValue
  events : List PluginEvent
deriving DecidableEq, Repr

/-- A loaded `Box<dyn Plugin>`: its manifest, the behaviour of its `execute`
method, and the result its `initialize` method produces for the context
`load_plugin` builds (the context only influences the plugin's own state, so
it is folded into this field). -/
structure LoadedPlugin where
  manifest : PluginManifest
  execFn : String → List (String × JValue) → Except PluginError PluginResult
  initResult : Except PluginError Unit

/-- `PluginManager` from `plugin_system.rs`. The two `HashMap`s are
association lists in iteration order; `find_plugin_for_intent` visits
`plugins` in exactly this order (a fixed map iterates identically on every
pass as long as it is not mutated). -/
structure PluginManagerState where
  plugins : List (String × LoadedPlugin)
  pluginConfigs : List (String × List (String × JValue))
  pluginsDir : String
  securityEnabled : Bool

/-- `HashMap::insert`: replace the binding if the key is present, else append. -/
def mapInsert {α : Type} : List (String × α) → String → α → List (String × α)
  | [], k, v => [(k, v)]
  | (k0, v0) :: rest, k, v =>
    if k0 == k then (k, v) :: rest else (k0, v0) :: mapInsert rest k v

/-- `HashMap::get`. -/
def mapGet {α : Type} (m : List (String × α)) (k : String) : Option α :=
  (m.find? (fun e => e.1 == k)).map (·.2)

/-- `PluginManager::validate_manifest`. -/
def validateManifest (m : PluginManifest) : Except PluginError Unit :=
  if m.name = "" then .error (.InvalidConfig "Plugin name cannot be empty")
  else if m.version = "" then .error (.InvalidConfig "Plugin version cannot be empty")
  else
    match m.intentPatterns.find? (fun p => p.patterns.isEmpty) with
    | some p => .error (.InvalidConfig ("Intent pattern '" ++ p.name ++ "' has no patterns"))
    | none => .ok ()

/-- `PluginManager::load_plugin`: validate the manifest, initialize the
plugin, then store it keyed by its name. -/
def loadPlugin (st : PluginManagerState) (p : LoadedPlugin) :
    Except PluginError PluginManagerState :=
  match validateManifest p.manifest with
  | .error e => .error e
  | .ok _ =>
    match p.initResult with
    | .error e => .error e
    | .ok _ => .ok { st with plugins := mapInsert st.plugins p.manifest.name p }

/-- `PluginManager::matches_pattern`: for each pattern string, compile its
lowercased form; on success test the regex against the lowercased text, on
compile failure fall back to substring containment. -/
def matchesPattern (text : String) (pat : PluginIntentPattern) : Bool :=
  pat.patterns.any fun ps =>
    match ps.compiledLower with
    | some r => reIsMatch r (lowerStr text.toList)
    | none => strContains (lowerStr text.toList) (lowerStr ps.raw.toList)

/-- Rust `str::split_whitespace` (ASCII whitespace), accumulator form. -/
def splitWsGo : Str → Str → List Str
  | [], acc => if acc.isEmpty then [] else [acc.reverse]
  | c :: rest, acc =>
    if isSpaceChar c then
      if acc.isEmpty then splitWsGo rest [] else acc.reverse :: splitWsGo rest []
    else splitWsGo rest (c :: acc)

/-- Rust `str::split_whitespace`. -/
def splitWs (s : Str) : List Str := splitWsGo s []

/-- Rust `str::parse::<i64>()`: optional sign, digits, `i64` range check. -/
def parseI64 (s : Str) : Option Int :=
  let signDigits : Int × Str :=
    match s with
    | '+' :: rest => (1, rest)
    | '-' :: rest => (-1, rest)
    | _ => (1, s)
  let digits := signDigits.2
  if digits.isEmpty || !(digits.all isDigitChar) then none
  else
    let n : Nat := digits.foldl (fun acc c => acc * 10 + (c.toNat - '0'.toNat)) 0
    let v : Int := signDigits.1 * n
    if -(2 ^ 63) ≤ v ∧ v ≤ 2 ^ 63 - 1 then some v else none

/-- `PluginManager::extract_number`: the first whitespace token that parses as
an `i64`. -/
def extractNumber (text : String) : Option Int :=
  (splitWs text.toList).findSome? parseI64

/-- The preposition list of `PluginManager::extract_string`. -/
def prepositionList : List Str :=
  ["for".toList, "to".toList, "in".toList, "at".toList, "on".toList, "with".toList]

/-- The word scan of `extract_string`: the word following the first
preposition that has a following word. -/
def extractStringGo : List Str → Option Str
  | [] => none
  | [_] => none
  | w :: next :: rest =>
    if prepositionList.contains (lowerStr w) then some next
    else extractStringGo (next :: rest)

/-- `PluginManager::extract_string` (the `param_name` argument is unused in
the source as well). -/
def extractString (text : String) (_paramName : String) : Option String :=
  (extractStringGo (splitWs text.toList)).map String.mk

/-- `PluginManager::extract_parameters`. -/
def extractParameters (text : String) (pat : PluginIntentPattern) :
    List (String × JValue) :=
  pat.parameters.foldl
    (fun acc param =>
      match param.paramType with
      | "number" =>
        match extractNumber text with
        | some n => mapInsert acc param.name (.prim (.num n))
        | none => acc
      | "string" =>
        match extractString text param.name with
        | some s => mapInsert acc param.name (.prim (.str s))
        | none => acc
      | _ => acc)
    []

/-- The plugin loop of `find_plugin_for_intent` over the map's entries. -/
def findPluginGo (text : String) :
    List (String × LoadedPlugin) → Option (String × String × List (String × JValue))
  | [] => none
  | (pluginName, pl) :: rest =>
    match pl.manifest.intentPatterns.find? (fun pat => matchesPattern text pat) with
    | some pat => some (pluginName, pat.name, extractParameters text pat)
    | none => findPluginGo text rest

/-- `PluginManager::find_plugin_for_intent`: first plugin (in map iteration
order) whose first matching pattern fires. -/
def findPluginForIntent (st : PluginManagerState) (text : String) :
    Option (String × String × List (String × JValue)) :=
  findPluginGo text st.plugins

/-- `PluginManager::check_permissions` — the placeholder always passes. -/
def checkPermissions (_st : PluginManagerState) (_pluginName _intent : String) :
    Except PluginError Unit := .ok ()

/-- `PluginManager::execute_plugin`. -/
def executePlugin (st : PluginManagerState) (pluginName intent : String)
    (parameters : List (String × JValue)) : Except PluginError PluginResult :=
  match mapGet st.plugins pluginName with
  | none => .error (.NotFound pluginName)
  | some plugin =>
    match (if st.securityEnabled then checkPermissions st pluginName intent else .ok ()) with
    | .error e => .error e
    | .ok _ => plugin.execFn intent parameters

theorem mapGet_mapInsert_self {α : Type} (m : List (String × α)) (k : String) (v : α) :
    mapGet (mapInsert m k v) k = some v := by
  induction m with
  | nil => simp [mapInsert, mapGet]
  | cons e rest ih =>
    rcases e with ⟨k0, v0⟩
    unfold mapInsert
    rcases hk : (k0 == k) with _ | _
    · simpa [mapGet, hk] using ih
    · simp [mapGet]

theorem mapInsert_length_of_isSome {α : Type} (m : List (String × α)) (k : String) (v : α)
    (h : (mapGet m k).isSome) : (mapInsert m k v).length = m.length := by
  induction m with
  | nil => simp [mapGet] at h
  | cons e rest ih =>
    rcases e with ⟨k0, v0⟩
    unfold mapInsert
    rcases hk : (k0 == k) with _ | _
    · simp only [Bool.false_eq_true, if_false, List.length_cons]
      rw [ih]
      simp only [mapGet, List.find?] at h
      rw [hk] at h
      simpa [mapGet] using h
    · simp

theorem validateManifest_error_invalid (m : PluginManifest) (e : PluginError)
    (h : validateManifest m = .error e) : ∃ msg, e = .InvalidConfig msg := by
  unfold validateManifest at h
  split_ifs at h with h1 h2
  · injection h with h2
    exact ⟨_, h2.symm⟩
  · injection h with h3
    exact ⟨_, h3.symm⟩
  · rcases hf : m.intentPatterns.find? (fun p => p.patterns.isEmpty) with _ | p <;> rw [hf] at h
    · simp at h
    · injection h with h3
      exact ⟨_, h3.symm⟩

theorem validateManifest_invalid_iff (m : PluginManifest) :
    (∃ msg, validateManifest m = .error (.InvalidConfig msg)) ↔
      (m.name = "" ∨ m.version = "" ∨ ∃ ip ∈ m.intentPatterns, ip.patterns = []) := by
  unfold validateManifest
  split_ifs with h1 h2
  · simp [h1]
  · simp [h1, h2]
  · rcases hf : m.intentPatterns.find? (fun p => p.patterns.isEmpty) with _ | p <;> rw [hf]
    · have hnone := List.find?_eq_none.mp hf
      simp only [h1, h2, false_or]
      constructor
      · intro h
        rcases h with ⟨msg, hmsg⟩
        simp at hmsg
      · intro h
        rcases h with ⟨ip, hip, hemp⟩
        have := hnone ip hip
        rw [hemp] at this
        simp at this
    · have hmem := List.mem_of_find?_eq_some hf
      have hprop := List.find?_some hf
      simp only [List.isEmpty_iff] at hprop
      simp only [h1, h2, false_or]
      constructor
      · intro _
        exact ⟨p, hmem, hprop⟩
      · intro _
        exact ⟨"Intent pattern '" ++ p.name ++ "' has no patterns", rfl⟩

theorem loadPlugin_ok_inv (st st1 : PluginManagerState) (p : LoadedPlugin)
    (h : loadPlugin st p = .ok st1) :
    st1.plugins = mapInsert st.plugins p.manifest.name p := by
  unfold loadPlugin at h
  rcases hv : validateManifest p.manifest with e | u <;> rw [hv] at h
  · simp at h
  · rcases hi : p.initResult with e | u2 <;> rw [hi] at h
    · simp at h
    · simp only [Except.ok.injEq] at h
      rw [← h]

/-- **C5**: with a plugin whose `initialize` succeeds, `load_plugin` rejects
with `PluginError::InvalidConfig` exactly when the manifest's name is empty,
or its version is empty, or some declared intent pattern has an empty pattern
list; otherwise the plugin is stored keyed by its name, and loading a second
plugin with the same name overwrites the first (same lookup key now yields the
second plugin and the map does not grow). -/
theorem c5_load_plugin_validation (st : PluginManagerState) (p : LoadedPlugin)
    (hinit : p.initResult = .ok ()) :
    ((∃ msg, loadPlugin st p = .error (.InvalidConfig msg)) ↔
      (p.manifest.name = "" ∨ p.manifest.version = "" ∨
        ∃ ip ∈ p.manifest.intentPatterns, ip.patterns = [])) ∧
    (¬(p.manifest.name = "" ∨ p.manifest.version = "" ∨
        ∃ ip ∈ p.manifest.intentPatterns, ip.patterns = []) →
      loadPlugin st p = .ok { st with plugins := mapInsert st.plugins p.manifest.name p } ∧
      mapGet (mapInsert st.plugins p.manifest.name p) p.manifest.name = some p) ∧
    (∀ p2 : LoadedPlugin, p2.manifest.name = p.manifest.name →
      ∀ st1, loadPlugin st p = .ok st1 → ∀ st2, loadPlugin st1 p2 = .ok st2 →
        mapGet st2.plugins p.manifest.name = some p2 ∧
        st2.plugins.length = st1.plugins.length) := by
  refine ⟨?_, ?_, ?_⟩
  · rcases hv : validateManifest p.manifest with e | u
    · obtain ⟨msg0, rfl⟩ := validateManifest_error_invalid _ _ hv
      have hr : loadPlugin st p = .error (.InvalidConfig msg0) := by
        unfold loadPlugin
        rw [hv]
      exact iff_of_true ⟨msg0, hr⟩ ((validateManifest_invalid_iff _).mp ⟨msg0, hv⟩)
    · have hr : loadPlugin st p = .ok { st with plugins := mapInsert st.plugins p.manifest.name p } := by
        unfold loadPlugin
        rw [hv, hinit]
      refine iff_of_false ?_ ?_
      · intro hex
        rcases hex with ⟨msg, hmsg⟩
        rw [hr] at hmsg
        simp at hmsg
      · intro hc
        obtain ⟨msg, hmsg⟩ := (validateManifest_invalid_iff _).mpr hc
        rw [hv] at hmsg
        simp at hmsg
  · intro hnc
    rcases hv : validateManifest p.manifest with e | u
    · obtain ⟨msg0, rfl⟩ := validateManifest_error_invalid _ _ hv
      exact absurd ((validateManifest_invalid_iff _).mp ⟨msg0, hv⟩) hnc
    · refine ⟨?_, mapGet_mapInsert_self _ _ _⟩
      unfold loadPlugin
      rw [hv, hinit]
  · intro p2 hname st1 h1 st2 h2
    have e1 := loadPlugin_ok_inv st st1 p h1
    have e2 := loadPlugin_ok_inv st1 st2 p2 h2
    rw [hname] at e2
    constructor
    · rw [e2]
      exact mapGet_mapInsert_self _ _ _
    · rw [e2]
      apply mapInsert_length_of_isSome
      rw [e1, mapGet_mapInsert_self]
      rfl

/-- Compilation of `(?i)weather.*in\s+(\w+)` (lowercased form is identical). -/
def reWeatherPlug1 : RE := RE.seq [RE.strCI "weather", RE.star true (.cls isDotChar),
  RE.strCI "in", wsP, RE.group 1 (RE.plus (.cls isWordChar))]

/-- Compilation of `(?i)what.*weather.*like`. -/
def reWeatherPlug2 : RE := RE.seq [RE.strCI "what", RE.star true (.cls isDotChar),
  RE.strCI "weather", RE.star true (.cls isDotChar), RE.strCI "like"]

/-- Compilation of `(?i)temperature.*in\s+(\w+)`. -/
def reWeatherPlug3 : RE := RE.seq [RE.strCI "temperature", RE.star true (.cls isDotChar),
  RE.strCI "in", wsP, RE.group 1 (RE.plus (.cls isWordChar))]

/-- The manifest built by `WeatherPlugin::new` (the JSON config schema text is
abbreviated — no modelled operation reads it). -/
def weatherManifest : PluginManifest where
  name := "weather"
  version := "1.0.0"
  description := "Weather information plugin"
  author := "Friday Assistant"
  entryPoint := "weather_plugin"
  permissions := [.Network ["api.openweathermap.org"]]
  dependencies := []
  intentPatterns :=
    [{ name := "get_weather"
       patterns := [⟨"(?i)weather.*in\\s+(\\w+)", some reWeatherPlug1⟩,
                    ⟨"(?i)what.*weather.*like", some reWeatherPlug2⟩,
                    ⟨"(?i)temperature.*in\\s+(\\w+)", some reWeatherPlug3⟩]
       confidence := 80
       parameters := [⟨"location", "string", false, "Location for weather query"⟩] }]
  configSchema := some "object: api_key (string, required), default_location (string)"

/-- `WeatherPlugin::execute` with `api_key = None` (the state after
`initialize` runs with the empty config that `load_plugin` supplies when no
`set_plugin_config` call preceded it). -/
def weatherPluginExec (intent : String) (parameters : List (String × JValue)) :
    Except PluginError PluginResult :=
  match intent with
  | "get_weather" =>
    let location :=
      match mapGet parameters "location" with
      | some (.prim (.str s)) => s
      | _ => "your location"
    .ok { success := true
          message := "Weather information for " ++ location ++
            " is not available. Please configure an API key."
          data := some (.obj [("location", .str location), ("temperature", .num 72),
            ("condition", .str "partly_cloudy")])
          events := [.Log "info" ("Weather query for " ++ location)] }
  | _ => .error (.ExecutionFailed ("Unknown intent: " ++ intent))

/-- The weather plugin as loaded (its `initialize` always succeeds). -/
def weatherPlugin : LoadedPlugin := ⟨weatherManifest, weatherPluginExec, .ok ()⟩

/-- `PluginManager::new` (empty maps, security enabled). -/
def PluginManagerState.new (pluginsDir : String) : PluginManagerState :=
  ⟨[], [], pluginsDir, true⟩

/-- Witness for C5: loading the source's own weather plugin into a fresh
manager succeeds and stores it under the key `"weather"`. -/
theorem c5_load_plugin_validation_witness :
    loadPlugin (PluginManagerState.new "/tmp/plugins") weatherPlugin =
      .ok { PluginManagerState.new "/tmp/plugins" with
            plugins := mapInsert (PluginManagerState.new "/tmp/plugins").plugins
              weatherPlugin.manifest.name weatherPlugin } ∧
    mapGet (mapInsert (PluginManagerState.new "/tmp/plugins").plugins
        weatherPlugin.manifest.name weatherPlugin) weatherPlugin.manifest.name =
      some weatherPlugin :=
  (c5_load_plugin_validation (PluginManagerState.new "/tmp/plugins") weatherPlugin rfl).2.1
    (by simp [weatherPlugin, weatherManifest])

/-- First-match characterization of the plugin loop: a successful
`find_plugin_for_intent` result comes from the first plugin (in map iteration
order) with a matching pattern, naming that plugin's first matching pattern
and its extracted parameters. -/
theorem findPluginGo_spec (text : String) (l : List (String × LoadedPlugin))
    (name iname : String) (params : List (String × JValue))
    (h : findPluginGo text l = some (name, iname, params)) :
    ∃ pre pl post, l = pre ++ (name, pl) :: post ∧
      (∀ q ∈ pre, ∀ pat ∈ q.2.manifest.intentPatterns, matchesPattern text pat = false) ∧
      ∃ pat, pl.manifest.intentPatterns.find? (fun x => matchesPattern text x) = some pat ∧
        iname = pat.name ∧ params = extractParameters text pat := by
  induction l with
  | nil => simp [findPluginGo] at h
  | cons e rest ih =>
    rcases e with ⟨pname, pl⟩
    unfold findPluginGo at h
    rcases hf : pl.manifest.intentPatterns.find? (fun pat => matchesPattern text pat)
      with _ | pat <;> rw [hf] at h
    · obtain ⟨pre, pl2, post, hsplit, hpre, htail⟩ := ih h
      refine ⟨(pname, pl) :: pre, pl2, post, by rw [hsplit, List.cons_append], ?_, htail⟩
      intro q hq
      rcases List.mem_cons.mp hq with rfl | hq
      · intro pat hpat
        have := List.find?_eq_none.mp hf pat hpat
        simpa using this
      · exact hpre q hq
    · obtain ⟨h1, h2, h3⟩ : pname = name ∧ pat.name = iname ∧ extractParameters text pat = params := by
        injection h with h'
        exact ⟨congrArg Prod.fst h', congrArg (Prod.fst ∘ Prod.snd) h',
          congrArg (Prod.snd ∘ Prod.snd) h'⟩
      subst h1
      exact ⟨[], pl, rest, rfl, by simp, pat, hf, h2.symm, h3.symm⟩

/-- **C7**: `find_plugin_for_intent` is a pure function of the loaded plugin
list and the input text — two managers with the same plugin entries (whatever
their directories, configs or security flags) give identical results, so two
calls on one unmutated manager (which iterates its map in the same order both
times) return the same (plugin, intent, parameters) triple or `None` twice —
and every successful result is the first-match one. -/
theorem c7_find_plugin_deterministic :
    (∀ (m1 m2 : PluginManagerState) (text : String), m1.plugins = m2.plugins →
      findPluginForIntent m1 text = findPluginForIntent m2 text) ∧
    ∀ (st : PluginManagerState) (text name iname : String) (params : List (String × JValue)),
      findPluginForIntent st text = some (name, iname, params) →
      ∃ pre pl post, st.plugins = pre ++ (name, pl) :: post ∧
        (∀ q ∈ pre, ∀ pat ∈ q.2.manifest.intentPatterns, matchesPattern text pat = false) ∧
        ∃ pat, pl.manifest.intentPatterns.find? (fun x => matchesPattern text x) = some pat ∧
          iname = pat.name ∧ params = extractParameters text pat := by
  constructor
  · intro m1 m2 text h
    unfold findPluginForIntent
    rw [h]
  · intro st text name iname params h
    exact findPluginGo_spec text st.plugins name iname params h

/-- A manager holding the weather plugin (as `PluginExecutor::initialize`
builds it). -/
def weatherManager : PluginManagerState :=
  ⟨[("weather", weatherPlugin)], [], "~/.friday/plugins", true⟩

/-- The same plugin list under a different directory, config map and security
flag. -/
def weatherManagerAlt : PluginManagerState :=
  ⟨[("weather", weatherPlugin)], [("weather", [("api_key", .prim (.str "k"))])], "/elsewhere", false⟩

/-- Witness for C7: the two managers agree on the concrete query, and the
result is the (plugin, intent, parameters) triple of the spec's scenario. -/
theorem c7_find_plugin_deterministic_witness :
    findPluginForIntent weatherManager "what's the weather like in Boston" =
      findPluginForIntent weatherManagerAlt "what's the weather like in Boston" ∧
    findPluginForIntent weatherManager "what's the weather like in Boston" =
      some ("weather", "get_weather", [("location", .prim (.str "Boston"))]) :=
  ⟨c7_find_plugin_deterministic.1 weatherManager weatherManagerAlt
      "what's the weather like in Boston" rfl,
   by decide⟩

/-! ## Plugin executor (`plugin_executor.rs`) -/

/-- `PluginExecutor`: a plugin manager plus the caller-supplied fallback
executor (the fallback may emit its own events and returns a response or an
`EngineError`). -/
structure PluginExecutorState where
  pluginManager : PluginManagerState
  fallbackExec : Intent → List EngineEvent × Except EngineError String

/-- The event relay inside `try_plugin_execution`'s success branch: `Log`
events go to the tracing sink (not the bus), `Notification` events are
forwarded as `EngineEvent::Notification("{title}: {body}")`, anything else is
logged at debug level only. -/
def relayPluginEvents (events : List PluginEvent) : List EngineEvent :=
  events.foldr
    (fun ev acc =>
      match ev with
      | .Notification title body => EngineEvent.Notification (title ++ ": " ++ body) :: acc
      | _ => acc)
    []

/-- `PluginExecutor::try_plugin_execution`: returns the plugin's message (plus
the events relayed onto the bus) only when a plugin was found, executed
without error and reported `success = true`; every other outcome yields `None`
(and nothing is relayed). -/
def tryPluginExecution (pe : PluginExecutorState) (text : String) :
    Option String × List EngineEvent :=
  match findPluginForIntent pe.pluginManager text with
  | some (pluginName, intent, parameters) =>
    match executePlugin pe.pluginManager pluginName intent parameters with
    | .ok result =>
      if result.success then (some result.message, relayPluginEvents result.events)
      else (none, [])
    | .error _ => (none, [])
  | none => (none, [])

/-- `<PluginExecutor as Executor>::execute`: only `Unknown` intents are
offered to plugins; a `None` from `try_plugin_execution` falls back to the
caller-supplied executor, whose result becomes the turn's result. -/
def pluginExecutorExecute (pe : PluginExecutorState) (intent : Intent) :
    List EngineEvent × Except EngineError String :=
  match intent with
  | .Unknown text =>
    match tryPluginExecution pe text with
    | (some response, evs) => (evs, .ok response)
    | (none, evs) => (evs ++ (pe.fallbackExec intent).1, (pe.fallbackExec intent).2)
  | _ => pe.fallbackExec intent

/-- **C4**: if no plugin matches, or the matched plugin's execute errors, or
it returns `success = false`, the fallback executor's result becomes the
turn's result (for non-`Unknown` intents the fallback runs directly); a
successful plugin handles the turn; and any `EngineError` the executor
returns is an error the fallback returned. -/
theorem c4_fallback_policy (pe : PluginExecutorState) :
    (∀ text name iname params result,
      findPluginForIntent pe.pluginManager text = some (name, iname, params) →
      executePlugin pe.pluginManager name iname params = .ok result →
      result.success = true →
      pluginExecutorExecute pe (.Unknown text) =
        (relayPluginEvents result.events, .ok result.message)) ∧
    (∀ text, findPluginForIntent pe.pluginManager text = none →
      pluginExecutorExecute pe (.Unknown text) = pe.fallbackExec (.Unknown text)) ∧
    (∀ text name iname params er,
      findPluginForIntent pe.pluginManager text = some (name, iname, params) →
      executePlugin pe.pluginManager name iname params = .error er →
      pluginExecutorExecute pe (.Unknown text) = pe.fallbackExec (.Unknown text)) ∧
    (∀ text name iname params result,
      findPluginForIntent pe.pluginManager text = some (name, iname, params) →
      executePlugin pe.pluginManager name iname params = .ok result →
      result.success = false →
      pluginExecutorExecute pe (.Unknown text) = pe.fallbackExec (.Unknown text)) ∧
    (∀ d, pluginExecutorExecute pe (.Timer d) = pe.fallbackExec (.Timer d)) ∧
    (∀ u, pluginExecutorExecute pe (.Greeting u) = pe.fallbackExec (.Greeting u)) ∧
    (∀ intent er, (pluginExecutorExecute pe intent).2 = .error er →
      (pe.fallbackExec intent).2 = .error er) := by
  refine ⟨?_, ?_, ?_, ?_, fun d => rfl, fun u => rfl, ?_⟩
  · intro text name iname params result hf hx hs
    simp only [pluginExecutorExecute, tryPluginExecution]
    rw [hf]
    simp [hx, hs]
  · intro text hf
    simp only [pluginExecutorExecute, tryPluginExecution]
    rw [hf]
    simp
  · intro text name iname params er hf hx
    simp only [pluginExecutorExecute, tryPluginExecution]
    rw [hf]
    simp [hx]
  · intro text name iname params result hf hx hs
    simp only [pluginExecutorExecute, tryPluginExecution]
    rw [hf]
    simp [hx, hs]
  · intro intent er
    rcases intent with d | u | text
    · exact fun h => h
    · exact fun h => h
    · intro h
      simp only [pluginExecutorExecute] at h
      rcases ht : tryPluginExecution pe text with ⟨_ | resp, evs⟩ <;> rw [ht] at h
      · simpa using h
      · simp at h

/-- Witness for C4: on the weather manager, a successful plugin handles the
Boston query (its result becomes the turn's result), while a `Timer` intent
goes straight to the fallback executor. -/
theorem c4_fallback_policy_witness :
    pluginExecutorExecute ⟨weatherManager, fun _ => ([.ExecutionStarted "fallback"], .ok "Okay.")⟩
        (.Unknown "what's the weather like in Boston") =
      (relayPluginEvents [.Log "info" "Weather query for Boston"],
        .ok "Weather information for Boston is not available. Please configure an API key.") ∧
    pluginExecutorExecute ⟨weatherManager, fun _ => ([.ExecutionStarted "fallback"], .ok "Okay.")⟩
        (.Timer 300) = ([.ExecutionStarted "fallback"], .ok "Okay.") :=
  ⟨(c4_fallback_policy _).1 "what's the weather like in Boston" "weather" "get_weather"
      [("location", .prim (.str "Boston"))]
      { success := true
        message := "Weather information for Boston is not available. Please configure an API key."
        data := some (.obj [("location", .str "Boston"), ("temperature", .num 72),
          ("condition", .str "partly_cloudy")])
        events := [.Log "info" "Weather query for Boston"] }
      (by decide) (by rfl) rfl,
   (c4_fallback_policy _).2.2.2.2.1 300⟩

/-! ## Dialogue Manager (`dialogue_manager.rs`) -/

/-- `SlotSource` from `dialogue_manager.rs`. -/
inductive SlotSource where
  | UserInput | Context | Default | Inferred
deriving DecidableEq, Repr

/-- `SlotValue` (confidence in the ×100 embedding). -/
structure SlotValue where
  value : String
  confidence : Nat
  source : SlotSource
  timestamp : Nat
deriving DecidableEq, Repr

/-- `ActiveIntent` from `dialogue_manager.rs`. -/
structure ActiveIntent where
  intentType : String
  confidence : Nat
  requiredSlots : List String
  optionalSlots : List String
  filledSlots : List (String × SlotValue)
  missingSlots : List String
deriving DecidableEq, Repr

/-- `Turn` from `dialogue_manager.rs`. -/
structure Turn where
  turnId : Nat
  userInput : String
  intent : Option String
  response : String
  timestamp : Nat
  success : Bool
deriving DecidableEq, Repr

/-- `DialogueContext` from `dialogue_manager.rs`. -/
structure DialogueContext where
  userPreferences : List (String × String)
  location : Option String
  timezone : Option String
  language : String
  previousTopics : List String
deriving DecidableEq, Repr

/-- `DialogueState` from `dialogue_manager.rs`. -/
structure DialogueState where
  sessionId : String
  context : DialogueContext
  activeIntent : Option ActiveIntent
  slotFilling : List (String × SlotValue)
  conversationHistory : List Turn
  createdAt : Nat
  lastActivity : Nat
deriving DecidableEq, Repr

/-- `SlotType` from `dialogue_manager.rs`. -/
inductive SlotType where
  | stringT | number | duration | location | dateTime | booleanT | choice (options : List String)
deriving DecidableEq, Repr

/-- `SlotDefinition` from `dialogue_manager.rs` (the validation pattern is
kept as its regex text; no modelled path compiles it). -/
structure SlotDefinition where
  name : String
  slotType : SlotType
  required : Bool
  validationPattern : Option String
  defaultValue : Option String
  prompt : String
deriving DecidableEq, Repr

/-- `DialogueManager` from `dialogue_manager.rs`: the session map (association
list in iteration order), the idle timeout, the session ceiling, and the slot
definitions keyed by slot name. -/
structure DialogueManagerState where
  sessions : List (String × DialogueState)
  sessionTimeoutMs : Nat
  maxSessions : Nat
  slotDefinitions : List (String × SlotDefinition)

/-- The slot definitions inserted by `initialize_slot_definitions`. -/
def initialSlotDefinitions : List (String × SlotDefinition) :=
  [("duration", ⟨"duration", .duration, true, some "\\d+\\s*(second|minute|hour)s?",
      some "5 minutes", "How long should the timer be?"⟩),
   ("timer_label", ⟨"timer_label", .stringT, false, none, none,
      "What would you like to call this timer?"⟩),
   ("location", ⟨"location", .location, false, none, none,
      "Which location would you like the weather for?"⟩),
   ("app_name", ⟨"app_name", .stringT, true, none, none,
      "Which application would you like to open?"⟩)]

/-- `DialogueManager::new`: empty sessions, 30-minute timeout, ceiling 100. -/
def DialogueManagerState.new : DialogueManagerState :=
  ⟨[], 30 * 60 * 1000, 100, initialSlotDefinitions⟩

/-- The expiry test of `cleanup_expired_sessions`:
`now - session.last_activity > session_timeout_ms` in `u64` arithmetic.
`Nat` subtraction truncates at zero, which agrees with the source whenever
`last_activity ≤ now` (a clock running backwards would make the `u64`
subtraction overflow — a panic in debug builds). -/
def sessionExpired (now timeoutMs : Nat) (s : DialogueState) : Bool :=
  decide (timeoutMs < now - s.lastActivity)

/-- The first phase of `cleanup_expired_sessions`: drop every expired session
(the source collects the expired keys and removes each; on a map with unique
keys this is a filter). -/
def removeExpired (now : Nat) (st : DialogueManagerState) : List (String × DialogueState) :=
  st.sessions.filter (fun e => !(sessionExpired now st.sessionTimeoutMs e.2))

/-- `Iterator::min_by_key` on `last_activity`: the first entry attaining the
minimum (ties in the map's iteration order are kept). -/
def pickMinActivity : List (String × DialogueState) → Option (String × DialogueState)
  | [] => none
  | e :: rest =>
    some (rest.foldl (fun b x => if x.2.lastActivity < b.2.lastActivity then x else b) e)

/-- `HashMap::remove` of a key (first occurrence in the association list). -/
def eraseKey : List (String × DialogueState) → String → List (String × DialogueState)
  | [], _ => []
  | e :: rest, k => if e.1 == k then rest else e :: eraseKey rest k

/-- The `while self.sessions.len() > self.max_sessions` eviction loop; each
iteration removes one entry, so the input length is enough fuel. -/
def evictLoopGo (maxSessions : Nat) : Nat → List (String × DialogueState) → List (String × DialogueState)
  | 0, l => l
  | fuel + 1, l =>
    if l.length > maxSessions then
      match pickMinActivity l with
      | some e => evictLoopGo maxSessions fuel (eraseKey l e.1)
      | none => l
    else l

/-- `DialogueManager::cleanup_expired_sessions`. -/
def cleanupExpiredSessions (now : Nat) (st : DialogueManagerState) : DialogueManagerState :=
  let kept := removeExpired now st
  { st with sessions := evictLoopGo st.maxSessions kept.length kept }

/-- The fresh `DialogueState` that `get_or_create_session` builds. -/
def freshSession (id : String) (now : Nat) : DialogueState :=
  { sessionId := id
    context := ⟨[], none, none, "en", []⟩
    activeIntent := none
    slotFilling := []
    conversationHistory := []
    createdAt := now
    lastActivity := now }

/-- Update the value bound to a key (no-op when the key is absent). -/
def mapUpdate {α : Type} : List (String × α) → String → (α → α) → List (String × α)
  | [], _, _ => []
  | e :: rest, k, f => if e.1 == k then (e.1, f e.2) :: rest else e :: mapUpdate rest k f

/-- `DialogueManager::get_or_create_session`: run the cleanup pass, create the
session if absent, then stamp `last_activity := now`. -/
def getOrCreateSession (now : Nat) (id : String) (st : DialogueManagerState) :
    DialogueManagerState :=
  let st1 := cleanupExpiredSessions now st
  let sessions2 :=
    if (mapGet st1.sessions id).isSome then st1.sessions
    else mapInsert st1.sessions id (freshSession id now)
  { st1 with sessions := mapUpdate sessions2 id (fun s => { s with lastActivity := now }) }

/-- `DialogueResponse` from `dialogue_manager.rs`. -/
structure DialogueResponse where
  response : String
  needsMoreInput : Bool
  prompt : Option String
  sessionComplete : Bool
deriving DecidableEq, Repr

/-- `(?i)for\s+(.+?)(?:\s+timer)?$` — first label pattern of
`extract_timer_label`. -/
def reLabelFor : RE := RE.seq [RE.strCI "for", wsP, anyPlusLazyG 1,
  RE.opt (RE.seq [wsP, RE.strCI "timer"]), RE.eol]

/-- `(?i)called\s+(.+?)(?:\s+timer)?$`. -/
def reLabelCalled : RE := RE.seq [RE.strCI "called", wsP, anyPlusLazyG 1,
  RE.opt (RE.seq [wsP, RE.strCI "timer"]), RE.eol]

/-- `(?i)named\s+(.+?)(?:\s+timer)?$`. -/
def reLabelNamed : RE := RE.seq [RE.strCI "named", wsP, anyPlusLazyG 1,
  RE.opt (RE.seq [wsP, RE.strCI "timer"]), RE.eol]

/-- `DialogueManager::extract_timer_label`: first pattern whose group 1
captures, trimmed. -/
def extractTimerLabel (text : Str) : Option String :=
  ([reLabelFor, reLabelCalled, reLabelNamed].findSome? fun r => reCapture r text 1).map
    (fun l => String.mk (trimStr l))

/-- `DialogueManager::check_missing_slots`: required slots without a filled
entry, in declaration order. -/
def checkMissingSlots (ai : ActiveIntent) : List String :=
  ai.requiredSlots.filter (fun s => (mapGet ai.filledSlots s).isNone)

/-- `DialogueManager::generate_slot_prompt`. -/
def generateSlotPrompt (slotDefs : List (String × SlotDefinition)) (slotName : String) : String :=
  match mapGet slotDefs slotName with
  | some d => d.prompt
  | none => "Please provide a value for " ++ slotName

/-- `(\d+)\s*(second|minute|hour)s?` — the (case-sensitive) regex of
`DialogueManager::extract_duration`; note `\s*`, unlike the NLU extractor. -/
def reDurDialogue : RE := RE.seq [digitsG 1, RE.star true (.cls isSpaceChar), unitG 2,
  RE.opt (RE.lit 's')]

/-- `DialogueManager::extract_duration`: the captured `"num unit"` string. -/
def extractDuration (now : Nat) (text : Str) : Option SlotValue :=
  match research reDurDialogue text with
  | some env =>
    match getCap env 1, getCap env 2 with
    | some num, some unit =>
      some ⟨String.mk num ++ " " ++ String.mk unit, 90, .UserInput, now⟩
    | _, _ => none
  | none => none

/-- `DialogueManager::extract_slot_value`. -/
def extractSlotValue (now : Nat) (slotName : String) (text : Str) : Option SlotValue :=
  match slotName with
  | "duration" => extractDuration now text
  | "timer_label" => some ⟨String.mk (trimStr text), 80, .UserInput, now⟩
  | "location" => some ⟨String.mk (trimStr text), 80, .UserInput, now⟩
  | _ => none

/-- `DialogueManager::execute_filled_intent` (always returns `Ok` in the
source; the event sender is unused there). -/
def executeFilledIntent (ai : ActiveIntent) : String :=
  match ai.intentType with
  | "timer" =>
    let duration :=
      match mapGet ai.filledSlots "duration" with
      | some v => v.value
      | none => "5 minutes"
    let label :=
      match mapGet ai.filledSlots "timer_label" with
      | some v => " called '" ++ v.value ++ "'"
      | none => ""
    "Timer set for " ++ duration ++ label
  | _ => "Intent executed successfully"

/-- `(?i)^(what|how|when|where|why|who)` — anchored. -/
def reFollowup1 : RE := RE.group 1 (RE.alts [RE.strCI "what", RE.strCI "how", RE.strCI "when",
  RE.strCI "where", RE.strCI "why", RE.strCI "who"])

/-- `(?i)^(can you|could you|will you)` — anchored. -/
def reFollowup2 : RE := RE.group 1 (RE.alts [RE.strCI "can you", RE.strCI "could you",
  RE.strCI "will you"])

/-- `(?i)^(tell me|show me)` — anchored. -/
def reFollowup3 : RE := RE.group 1 (RE.alts [RE.strCI "tell me", RE.strCI "show me"])

/-- `(?i)(more|again|repeat)` — unanchored. -/
def reFollowup4 : RE := RE.group 1 (RE.alts [RE.strCI "more", RE.strCI "again", RE.strCI "repeat"])

/-- `DialogueManager::is_followup_question`. -/
def isFollowupQuestion (text : Str) : Bool :=
  reIsMatchAnchored reFollowup1 text || reIsMatchAnchored reFollowup2 text
    || reIsMatchAnchored reFollowup3 text || reIsMatch reFollowup4 text

/-- `DialogueManager::handle_followup`. -/
def handleFollowup (session : DialogueState) (text : Str) : String :=
  if strContains (lowerStr text) "what".toList && strContains (lowerStr text) "can".toList then
    "I can help you with setting timers, checking weather, opening applications, controlling system volume, and answering basic questions."
  else
    match session.conversationHistory.getLast? with
    | some lastTurn =>
      match lastTurn.intent with
      | some i => "That was about " ++ i ++ ". Is there anything else I can help you with?"
      | none => "I'm not sure what you're referring to. Could you be more specific?"
    | none => "I'm not sure what you're referring to. Could you be more specific?"

/-- `DialogueManager::add_turn_to_history`: push the turn, then drop the
oldest entry once the history exceeds 10. -/
def addTurnToHistory (now : Nat) (session : DialogueState) (userInput : String)
    (intent : Option String) (response : String) (success : Bool) : DialogueState :=
  let turn : Turn :=
    { turnId := session.conversationHistory.length + 1
      userInput := userInput
      intent := intent
      response := response
      timestamp := now
      success := success }
  let history := session.conversationHistory ++ [turn]
  { session with
    conversationHistory := if history.length > 10 then history.drop 1 else history }

/-- `DialogueManager::handle_timer_intent`: a `Timer` intent always fills the
`"duration"` slot immediately (with `"{duration_secs} seconds"`), so the
required slots are complete and `needs_more_input` is always `false`; the
`else` branch putting an `ActiveIntent` into the session is dead code. -/
def handleTimerIntent (now : Nat) (slotDefs : List (String × SlotDefinition))
    (session : DialogueState) (userInput : String) (durationSecs : Nat) :
    DialogueState × DialogueResponse :=
  let timerLabel := extractTimerLabel userInput.toList
  let filled0 := mapInsert [] "duration"
    (⟨toString durationSecs ++ " seconds", 90, .UserInput, now⟩ : SlotValue)
  let filled1 :=
    match timerLabel with
    | some label => mapInsert filled0 "timer_label" ⟨label, 80, .UserInput, now⟩
    | none => filled0
  let activeIntent : ActiveIntent :=
    { intentType := "timer", confidence := 90, requiredSlots := ["duration"]
      optionalSlots := ["timer_label"], filledSlots := filled1, missingSlots := [] }
  let missingSlots := checkMissingSlots activeIntent
  if missingSlots.isEmpty then
    let response := "Timer set for " ++ toString durationSecs ++ " seconds"
    let session1 := { session with activeIntent := none }
    let session2 := addTurnToHistory now session1 userInput (some "timer") response true
    (session2, ⟨response, false, none, false⟩)
  else
    let prompt := generateSlotPrompt slotDefs (missingSlots.headD "")
    let session1 :=
      { session with activeIntent := some { activeIntent with missingSlots := missingSlots } }
    (session1, ⟨prompt, true, some prompt, false⟩)

/-- `DialogueManager::handle_unknown_intent`: answers a follow-up question or
a canned greeting/help string; it never starts slot filling and always returns
`needs_more_input = false`. -/
def handleUnknownIntent (now : Nat) (session : DialogueState) (userInput : String)
    (text : String) : DialogueState × DialogueResponse :=
  if isFollowupQuestion text.toList then
    let response := handleFollowup session text.toList
    let session1 := addTurnToHistory now session userInput none response true
    (session1, ⟨response, false, none, false⟩)
  else
    let response :=
      if session.conversationHistory.isEmpty then
        "Hello! I'm Friday, your voice assistant. I can help you with timers, weather, opening apps, and more. What would you like to do?"
      else
        "I'm not sure how to help with that. You can ask me to set timers, check the weather, open applications, or control system volume."
    let session1 := addTurnToHistory now session userInput none response true
    (session1, ⟨response, false, none, false⟩)

/-- `DialogueManager::handle_slot_filling`. `none` models a source panic (the
source indexes `missing_slots[0]` unconditionally). -/
def handleSlotFilling (now : Nat) (slotDefs : List (String × SlotDefinition))
    (session : DialogueState) (ai : ActiveIntent) (userInput : String) :
    DialogueState × Option DialogueResponse :=
  match ai.missingSlots with
  | [] => (session, none)
  | missingSlot :: restMissing =>
    match extractSlotValue now missingSlot userInput.toList with
    | some slotValue =>
      let ai1 := { ai with
        filledSlots := mapInsert ai.filledSlots missingSlot slotValue
        missingSlots := restMissing }
      if ai1.missingSlots.isEmpty then
        let response := executeFilledIntent ai1
        let session1 := { session with activeIntent := none }
        let session2 := addTurnToHistory now session1 userInput (some ai1.intentType) response true
        (session2, some ⟨response, false, none, false⟩)
      else
        let nextSlot := ai1.missingSlots.headD ""
        let prompt := generateSlotPrompt slotDefs nextSlot
        ({ session with activeIntent := some ai1 }, some ⟨prompt, true, some prompt, false⟩)
    | none =>
      let prompt := "I didn't understand that. " ++ generateSlotPrompt slotDefs missingSlot
      ({ session with activeIntent := some ai }, some ⟨prompt, true, some prompt, false⟩)

/-- `DialogueManager::process_turn` (all `current_timestamp()` reads within
one turn are the single parameter `now`; the event sender is never used by
the handlers). `none` models a source panic. The `Greeting` arm is
unreachable: `lib.rs`'s `Intent` has no such variant (the `enhanced_nlu.rs`
conversion naming it cannot compile), and the source `match` covers only
`Timer` and `Unknown`. -/
def processTurn (now : Nat) (sessionId userInput : String) (intent : Intent)
    (st : DialogueManagerState) : DialogueManagerState × Option DialogueResponse :=
  let st1 := getOrCreateSession now sessionId st
  match mapGet st1.sessions sessionId with
  | none => (st1, none)
  | some session =>
    match session.activeIntent with
    | some ai =>
      let (session2, resp) := handleSlotFilling now st1.slotDefinitions session ai userInput
      ({ st1 with sessions := mapInsert st1.sessions sessionId session2 }, resp)
    | none =>
      match intent with
      | .Timer durationSecs =>
        let (session2, resp) :=
          handleTimerIntent now st1.slotDefinitions session userInput durationSecs
        ({ st1 with sessions := mapInsert st1.sessions sessionId session2 }, some resp)
      | .Unknown text =>
        let (session2, resp) := handleUnknownIntent now session userInput text
        ({ st1 with sessions := mapInsert st1.sessions sessionId session2 }, some resp)
      | .Greeting _ => (st1, none)

/-- **C3** (code bug): a `Timer` intent always fills its single required slot
immediately, so it never prompts (`needs_more_input = false` — the first half
of the claim); but no path ever starts slot filling at all:
`handle_unknown_intent` never stores an `ActiveIntent`, so the utterance
`"set a timer"` (parsed `Unknown`, missing the duration) answers with the
greeting string, `needs_more_input = false` and no prompt, leaves no active
intent in the session, and the follow-up `"5 minutes"` merely produces the
canned help string — contradicting the repository's own
`test_slot_filling`, which asserts `needs_more_input = true` and a prompt on
the first turn. -/
theorem c3_slot_filling_never_prompts :
    (∀ (now : Nat) (slotDefs : List (String × SlotDefinition)) (session : DialogueState)
        (userInput : String) (d : Nat),
      (handleTimerIntent now slotDefs session userInput d).2.needsMoreInput = false) ∧
    (processTurn 0 "test" "set a timer" (.Unknown "set a timer") DialogueManagerState.new).2 =
      some ⟨"Hello! I'm Friday, your voice assistant. I can help you with timers, weather, opening apps, and more. What would you like to do?",
        false, none, false⟩ ∧
    (mapGet (processTurn 0 "test" "set a timer" (.Unknown "set a timer")
        DialogueManagerState.new).1.sessions "test").map (·.activeIntent) = some none ∧
    ((processTurn 1 "test" "5 minutes" (.Unknown "5 minutes")
        (processTurn 0 "test" "set a timer" (.Unknown "set a timer")
          DialogueManagerState.new).1).2.map (·.needsMoreInput)) = some false := by
  refine ⟨?_, by decide, by decide, by decide⟩
  intro now slotDefs session userInput d
  unfold handleTimerIntent
  rcases extractTimerLabel userInput.toList with _ | label <;> rfl

/-! ### Session-map lemmas for C6 -/

theorem mem_eraseKey (l : List (String × DialogueState)) (k : String)
    (x : String × DialogueState) (h : x ∈ eraseKey l k) : x ∈ l := by
  induction l with
  | nil => simp [eraseKey] at h
  | cons e rest ih =>
    unfold eraseKey at h
    rcases hk : (e.1 == k) with _ | _ <;> rw [hk] at h
    · simp only [Bool.false_eq_true, if_false] at h
      rcases List.mem_cons.mp h with rfl | h
      · exact List.mem_cons_self _ _
      · exact List.mem_cons_of_mem _ (ih h)
    · simp only [if_true] at h
      exact List.mem_cons_of_mem _ h

theorem eraseKey_sublist (l : List (String × DialogueState)) (k : String) :
    (eraseKey l k).Sublist l := by
  induction l with
  | nil => simp [eraseKey]
  | cons e rest ih =>
    unfold eraseKey
    rcases hk : (e.1 == k) with _ | _
    · simpa using ih.cons₂ e
    · simp

theorem eraseKey_length (l : List (String × DialogueState)) (k : String)
    (h : ∃ x ∈ l, x.1 = k) : (eraseKey l k).length + 1 = l.length := by
  induction l with
  | nil => simp at h
  | cons e rest ih =>
    unfold eraseKey
    rcases hk : (e.1 == k) with _ | _
    · simp only [Bool.false_eq_true, if_false, List.length_cons]
      rcases h with ⟨x, hx, hxk⟩
      rcases List.mem_cons.mp hx with rfl | hx
      · rw [hxk] at hk
        simp at hk
      · rw [ih ⟨x, hx, hxk⟩]
    · simp

theorem mem_evictLoopGo (maxSessions : Nat) :
    ∀ (fuel : Nat) (l : List (String × DialogueState)) (x : String × DialogueState),
      x ∈ evictLoopGo maxSessions fuel l → x ∈ l := by
  intro fuel
  induction fuel with
  | zero => intro l x h; simp only [evictLoopGo] at h; exact h
  | succ fuel ih =>
    intro l x h
    unfold evictLoopGo at h
    split at h
    · rcases hp : pickMinActivity l with _ | e <;> rw [hp] at h
      · exact h
      · exact mem_eraseKey _ _ _ (ih _ _ h)
    · exact h

theorem foldlMinStep_choice (l : List (String × DialogueState)) :
    ∀ b, (l.foldl (fun b x => if x.2.lastActivity < b.2.lastActivity then x else b) b = b ∨
      l.foldl (fun b x => if x.2.lastActivity < b.2.lastActivity then x else b) b ∈ l) := by
  induction l with
  | nil => intro b; simp
  | cons a rest ih =>
    intro b
    simp only [List.foldl_cons]
    rcases ih (if a.2.lastActivity < b.2.lastActivity then a else b) with h | h
    · rw [h]
      split
      · exact Or.inr (List.mem_cons_self _ _)
      · exact Or.inl rfl
    · exact Or.inr (List.mem_cons_of_mem _ h)

theorem foldlMinStep_le (l : List (String × DialogueState)) :
    ∀ b, (l.foldl (fun b x => if x.2.lastActivity < b.2.lastActivity then x else b)
        b).2.lastActivity ≤ b.2.lastActivity ∧
      ∀ y ∈ l, (l.foldl (fun b x => if x.2.lastActivity < b.2.lastActivity then x else b)
        b).2.lastActivity ≤ y.2.lastActivity := by
  induction l with
  | nil => intro b; simp
  | cons a rest ih =>
    intro b
    simp only [List.foldl_cons]
    obtain ⟨h1, h2⟩ := ih (if a.2.lastActivity < b.2.lastActivity then a else b)
    have hstep_b : (if a.2.lastActivity < b.2.lastActivity then a else b).2.lastActivity ≤
        b.2.lastActivity := by
      split
      · exact Nat.le_of_lt (by assumption)
      · exact Nat.le_refl _
    have hstep_a : (if a.2.lastActivity < b.2.lastActivity then a else b).2.lastActivity ≤
        a.2.lastActivity := by
      split
      · exact Nat.le_refl _
      · exact Nat.le_of_not_lt (by assumption)
    refine ⟨le_trans h1 hstep_b, ?_⟩
    intro y hy
    rcases List.mem_cons.mp hy with rfl | hy
    · exact le_trans h1 hstep_a
    · exact h2 y hy

theorem pickMinActivity_spec (l : List (String × DialogueState)) (hne : l ≠ []) :
    ∃ e, pickMinActivity l = some e ∧ e ∈ l ∧
      ∀ y ∈ l, e.2.lastActivity ≤ y.2.lastActivity := by
  rcases l with _ | ⟨a, rest⟩
  · exact absurd rfl hne
  · refine ⟨_, rfl, ?_, ?_⟩
    · rcases foldlMinStep_choice rest a with h | h
      · rw [h]; exact List.mem_cons_self _ _
      · exact List.mem_cons_of_mem _ h
    · intro y hy
      obtain ⟨h1, h2⟩ := foldlMinStep_le rest a
      rcases List.mem_cons.mp hy with rfl | hy
      · exact h1
      · exact h2 y hy

theorem evictLoopGo_length (maxSessions : Nat) :
    ∀ (fuel : Nat) (l : List (String × DialogueState)), l.length ≤ fuel →
      (evictLoopGo maxSessions fuel l).length ≤ maxSessions := by
  intro fuel
  induction fuel with
  | zero =>
    intro l h
    have : l = [] := List.eq_nil_of_length_eq_zero (Nat.le_zero.mp h)
    simp [this, evictLoopGo]
  | succ fuel ih =>
    intro l h
    unfold evictLoopGo
    split
    · rename_i hgt
      have hne : l ≠ [] := by
        intro he
        rw [he] at hgt
        simp at hgt
      obtain ⟨e, hpick, hmem, _⟩ := pickMinActivity_spec l hne
      rw [hpick]
      apply ih
      have := eraseKey_length l e.1 ⟨e, hmem, rfl⟩
      omega
    · rename_i hle
      exact Nat.le_of_not_lt hle

theorem eraseKey_removed_eq (l : List (String × DialogueState)) (e : String × DialogueState)
    (hnodup : (l.map Prod.fst).Nodup) (he : e ∈ l) (x : String × DialogueState)
    (hx : x ∈ l) (hxe : ¬ x ∈ eraseKey l e.1) : x = e := by
  induction l with
  | nil => simp at hx
  | cons a rest ih =>
    simp only [List.map_cons, List.nodup_cons] at hnodup
    obtain ⟨hkey, hnodup2⟩ := hnodup
    unfold eraseKey at hxe
    rcases hk : (a.1 == e.1) with _ | _ <;> rw [hk] at hxe
    · simp only [Bool.false_eq_true, if_false] at hxe
      have hane : a.1 ≠ e.1 := by simpa using hk
      have he2 : e ∈ rest := by
        rcases List.mem_cons.mp he with rfl | he2
        · exact absurd rfl hane
        · exact he2
      rcases List.mem_cons.mp hx with rfl | hx2
      · exact absurd (List.mem_cons_self _ _) hxe
      · exact ih hnodup2 he2 hx2 (fun hmem => hxe (List.mem_cons_of_mem _ hmem))
    · simp only [if_true] at hxe
      have hae : a.1 = e.1 := by simpa using hk
      have he2 : e = a := by
        rcases List.mem_cons.mp he with rfl | he2
        · rfl
        · exact absurd (hae ▸ (List.mem_map_of_mem Prod.fst he2)) hkey
      rcases List.mem_cons.mp hx with rfl | hx2
      · exact he2.symm
      · exact absurd hx2 hxe

theorem eraseKey_nodup (l : List (String × DialogueState)) (k : String)
    (hnodup : (l.map Prod.fst).Nodup) : ((eraseKey l k).map Prod.fst).Nodup :=
  List.Nodup.sublist (List.Sublist.map Prod.fst (eraseKey_sublist l k)) hnodup

theorem evictLoopGo_evicted_min (maxSessions : Nat) :
    ∀ (fuel : Nat) (l : List (String × DialogueState)), (l.map Prod.fst).Nodup →
      ∀ x ∈ l, ¬ x ∈ evictLoopGo maxSessions fuel l →
        ∀ y ∈ evictLoopGo maxSessions fuel l, x.2.lastActivity ≤ y.2.lastActivity := by
  intro fuel
  induction fuel with
  | zero =>
    intro l _ x hx hnx
    simp only [evictLoopGo] at hnx
    exact absurd hx hnx
  | succ fuel ih =>
    intro l hnodup x hx hnx y hy
    unfold evictLoopGo at hnx hy
    split at hnx
    · rename_i hgt
      have hne : l ≠ [] := by
        intro he
        rw [he] at hgt
        simp at hgt
      obtain ⟨e, hpick, hmem, hmin⟩ := pickMinActivity_spec l hne
      rw [hpick] at hnx
      rw [if_pos hgt, hpick] at hy
      by_cases hxl : x ∈ eraseKey l e.1
      · exact ih (eraseKey l e.1) (eraseKey_nodup l e.1 hnodup) x hxl hnx y hy
      · have hxe : x = e := eraseKey_removed_eq l e hnodup hmem x hx hxl
        have hyl : y ∈ l := mem_eraseKey _ _ _ (mem_evictLoopGo _ _ _ _ hy)
        rw [hxe]
        exact hmin y hyl
    · rename_i hle
      rw [if_neg hle] at hy
      exact absurd hx hnx

theorem mapGet_mapUpdate_some {α : Type} (m : List (String × α)) (k : String) (f : α → α)
    (v : α) (h : mapGet m k = some v) : mapGet (mapUpdate m k f) k = some (f v) := by
  induction m with
  | nil => simp [mapGet] at h
  | cons e rest ih =>
    unfold mapUpdate
    rcases hk : (e.1 == k) with _ | _
    · simp only [Bool.false_eq_true, if_false]
      simp only [mapGet, List.find?] at h ⊢
      rw [hk] at h ⊢
      exact ih h
    · simp only [if_true]
      simp only [mapGet, List.find?] at h ⊢
      rw [hk] at h
      have h2 : e.2 = v := by simpa using h
      simp [hk, h2]

theorem mem_mapUpdate_ne {α : Type} (m : List (String × α)) (k : String) (f : α → α)
    (x : String × α) (hx : x ∈ mapUpdate m k f) (hne : x.1 ≠ k) : x ∈ m := by
  induction m with
  | nil => simp [mapUpdate] at hx
  | cons e rest ih =>
    unfold mapUpdate at hx
    rcases hk : (e.1 == k) with _ | _ <;> rw [hk] at hx
    · simp only [Bool.false_eq_true, if_false] at hx
      rcases List.mem_cons.mp hx with rfl | hx
      · exact List.mem_cons_self _ _
      · exact List.mem_cons_of_mem _ (ih hx)
    · simp only [if_true] at hx
      rcases List.mem_cons.mp hx with rfl | hx
      · exact absurd (by simpa using hk) hne
      · exact List.mem_cons_of_mem _ hx

theorem mem_mapInsert_ne {α : Type} (m : List (String × α)) (k : String) (v : α)
    (x : String × α) (hx : x ∈ mapInsert m k v) (hne : x.1 ≠ k) : x ∈ m := by
  induction m with
  | nil =>
    simp only [mapInsert, List.mem_singleton] at hx
    rw [hx] at hne
    exact absurd rfl hne
  | cons e rest ih =>
    unfold mapInsert at hx
    rcases hk : (e.1 == k) with _ | _ <;> rw [hk] at hx
    · simp only [Bool.false_eq_true, if_false] at hx
      rcases List.mem_cons.mp hx with rfl | hx
      · exact List.mem_cons_self _ _
      · exact List.mem_cons_of_mem _ (ih hx)
    · simp only [if_true] at hx
      rcases List.mem_cons.mp hx with rfl | hx
      · exact absurd rfl hne
      · exact List.mem_cons_of_mem _ hx

/-- **C6**: the cleanup pass run by every `get_or_create_session` removes
every session whose `last_activity` precedes `now - session_timeout`
(equivalently `last_activity + timeout < now`); after the pass the session
count never exceeds the configured ceiling; eviction takes least-recently-
active sessions first (every entry evicted by the ceiling loop has
`last_activity` no later than every survivor's); and the accessed session
then exists with `last_activity = now` while every other surviving entry is a
survivor of the cleanup pass. -/
theorem c6_session_cleanup_eviction (st : DialogueManagerState) (now : Nat)
    (hnodup : (st.sessions.map Prod.fst).Nodup) :
    (∀ e ∈ st.sessions, e.2.lastActivity + st.sessionTimeoutMs < now →
      ¬ e ∈ (cleanupExpiredSessions now st).sessions) ∧
    (cleanupExpiredSessions now st).sessions.length ≤ st.maxSessions ∧
    (∀ x ∈ removeExpired now st, ¬ x ∈ (cleanupExpiredSessions now st).sessions →
      ∀ y ∈ (cleanupExpiredSessions now st).sessions, x.2.lastActivity ≤ y.2.lastActivity) ∧
    (∀ id : String, ∃ s, mapGet (getOrCreateSession now id st).sessions id = some s ∧
      s.lastActivity = now) ∧
    (∀ id : String, ∀ e ∈ (getOrCreateSession now id st).sessions, e.1 ≠ id →
      e ∈ (cleanupExpiredSessions now st).sessions) := by
  have hkept_nodup : ((removeExpired now st).map Prod.fst).Nodup :=
    List.Nodup.sublist (List.Sublist.map Prod.fst (List.filter_sublist st.sessions)) hnodup
  refine ⟨?_, ?_, ?_, ?_, ?_⟩
  · intro e _ hexp hin
    simp only [cleanupExpiredSessions] at hin
    have hkept := mem_evictLoopGo _ _ _ _ hin
    obtain ⟨_, hpred⟩ := List.mem_filter.mp hkept
    simp only [Bool.not_eq_eq_eq_not, Bool.not_true] at hpred
    have := of_decide_eq_false hpred
    simp only [sessionExpired] at hpred
    have hne : ¬ (st.sessionTimeoutMs < now - e.2.lastActivity) := by
      intro hc
      rw [decide_eq_true hc] at hpred
      simp at hpred
    omega
  · exact evictLoopGo_length st.maxSessions _ _ (Nat.le_refl _)
  · intro x hx hnx y hy
    exact evictLoopGo_evicted_min st.maxSessions _ _ hkept_nodup x hx hnx y hy
  · intro id
    simp only [getOrCreateSession]
    rcases hp : (mapGet (cleanupExpiredSessions now st).sessions id).isSome with _ | _
    · simp only [Bool.false_eq_true, if_false]
      refine ⟨{ freshSession id now with lastActivity := now }, ?_, rfl⟩
      exact mapGet_mapUpdate_some _ _ _ _ (mapGet_mapInsert_self _ _ _)
    · simp only [if_true]
      obtain ⟨v, hv⟩ := Option.isSome_iff_exists.mp hp
      exact ⟨{ v with lastActivity := now }, mapGet_mapUpdate_some _ _ _ _ hv, rfl⟩
  · intro id e he hne
    simp only [getOrCreateSession] at he
    rcases hp : (mapGet (cleanupExpiredSessions now st).sessions id).isSome with _ | _
      <;> rw [hp] at he
    · simp only [Bool.false_eq_true, if_false] at he
      exact mem_mapInsert_ne _ _ _ _ (mem_mapUpdate_ne _ _ _ _ he hne) hne
    · simp only [if_true] at he
      exact mem_mapUpdate_ne _ _ _ _ he hne

/-- A concrete session for the C6 witness. -/
def demoSession (id : String) (la : Nat) : DialogueState :=
  { freshSession id 0 with lastActivity := la }

/-- A concrete two-session manager (timeout 10 ms, ceiling 1). -/
def demoManager : DialogueManagerState :=
  ⟨[("a", demoSession "a" 0), ("b", demoSession "b" 15)], 10, 1, []⟩

/-- Witness for C6: at `now = 20` the idle session `"a"` (last active at 0,
timeout 10) is removed by the cleanup pass, the survivor count respects the
ceiling 1, and accessing session `"c"` creates it with `last_activity = 20`. -/
theorem c6_session_cleanup_eviction_witness :
    ¬ (("a", demoSession "a" 0) ∈ (cleanupExpiredSessions 20 demoManager).sessions) ∧
    (cleanupExpiredSessions 20 demoManager).sessions.length ≤ 1 ∧
    (∃ s, mapGet (getOrCreateSession 20 "c" demoManager).sessions "c" = some s ∧
      s.lastActivity = 20) :=
  ⟨(c6_session_cleanup_eviction demoManager 20 (by decide)).1 ("a", demoSession "a" 0)
      (by decide) (by decide),
   (c6_session_cleanup_eviction demoManager 20 (by decide)).2.1,
   (c6_session_cleanup_eviction demoManager 20 (by decide)).2.2.2.1 "c"⟩
